import Mathlib

/-!
Activity Planner: sanitizer, validator, submit handlers and event store

A shallow embedding of `src/js/sanitizer.js`, of the schema table and the
`dbOperations` of `src/js/db.js`, and of the two saving handlers of
`src/js/main.js`.

Conventions of the embedding:

* a JavaScript string is a Lean `String` (a sequence of code points); the
  regular expressions of the source carry no `u` flag and only ever test or
  delete single characters of the Basic Multilingual Plane, so they act alike
  on code points and on UTF-16 code units of a well-formed string;
* a value that may be `null` or `undefined` is an `Option String`, with `none`
  standing for both;
* an object used as a dictionary is the list of its own entries in
  `Object.entries` order; property names inherited from `Object.prototype`
  are outside this model;
* what the browser supplies (date parsing, Unicode upper-casing outside ASCII,
  the DOMPurify library) is collected in `Platform` and passed explicitly;
* the Dexie table behind `dbOperations` is library code that is not among the
  sources: its operations are modelled from their documented behaviour, on
  records keyed by the numbers of the key generator, and the clock, the date
  parser and a rejection by the storage medium are explicit arguments.
-/

namespace ActivityPlanner

/-! ## JavaScript strings and truthiness -/

/-- ECMAScript `WhiteSpace` and `LineTerminator` code points: what
`String.prototype.trim` strips and what `\s` matches. -/
def isJsWhitespace (c : Char) : Bool :=
  c.toNat == 0x09 || c.toNat == 0x0A || c.toNat == 0x0B || c.toNat == 0x0C ||
  c.toNat == 0x0D || c.toNat == 0x20 || c.toNat == 0xA0 || c.toNat == 0x1680 ||
  (0x2000 ≤ c.toNat && c.toNat ≤ 0x200A) ||
  c.toNat == 0x2028 || c.toNat == 0x2029 || c.toNat == 0x202F ||
  c.toNat == 0x205F || c.toNat == 0x3000 || c.toNat == 0xFEFF

/-- The method `String.prototype.trim` on the characters of a string. -/
def jsTrim (cs : List Char) : List Char :=
  (cs.dropWhile isJsWhitespace).rdropWhile isJsWhitespace

/-- JavaScript truthiness of a string-or-null value: `null`, `undefined` and
the empty string are falsy, every other string is truthy. -/
def truthy : Option String → Bool
  | none => false
  | some s => s.data ≠ []

/-- What the browser provides to the sanitizer. -/
structure Platform where
  /-- Whether `new Date(s).getTime()` is a number (not `NaN`). -/
  dateIsValid : String → Bool
  /-- The Unicode upper-case mapping of a non-ASCII character, as used by
  `String.prototype.toUpperCase` (one character may map to several). -/
  upperNonAscii : Char → List Char
  /-- Whether the global `DOMPurify` is defined. -/
  useDOMPurify : Bool
  /-- The call `DOMPurify.sanitize(dirty, cfg)` with the allow-list of
  `sanitizeHTML`. -/
  domPurify : Option String → String

/-- The method `String.prototype.toUpperCase`: ASCII letters by the ASCII
rule, every other character by the platform's Unicode table. -/
def toUpperCase (P : Platform) (cs : List Char) : List Char :=
  cs.flatMap fun c => if c.toNat < 128 then [c.toUpper] else P.upperNonAscii c

/-! ## Regular expressions

The patterns of the source use character classes, concatenation, alternation
and bounded repetition only; `Re` is that fragment and `Re.run` returns every
remainder a match from the start of the input can leave. -/

/-- Regular expressions without unbounded repetition. -/
inductive Re where
  | cls (p : Char → Bool)
  | seq (a b : Re)
  | alt (a b : Re)
  | opt (a : Re)

namespace Re

/-- All remainders left by a match of the pattern at the start of the input. -/
def run : Re → List Char → List (List Char)
  | cls _, [] => []
  | cls p, c :: cs => if p c then [cs] else []
  | seq a b, cs => (run a cs).flatMap (run b)
  | alt a b, cs => run a cs ++ run b cs
  | opt a, cs => run a cs ++ [cs]

/-- The method `RegExp.prototype.test` for a pattern anchored as `^...$`
(no `m` flag: `$` is the very end of the input). -/
def test (r : Re) (cs : List Char) : Bool :=
  (run r cs).any List.isEmpty

/-- The class `[lo-hi]`. -/
def range (lo hi : Char) : Re := cls fun c => lo.toNat ≤ c.toNat && c.toNat ≤ hi.toNat

/-- A single literal character. -/
def chr (x : Char) : Re := cls fun c => c == x

/-- The class `[A-Z]` under the `i` flag (no `u` flag): the canonicalisation
never maps a non-ASCII character to an ASCII one, so exactly the ASCII
letters of either case match. -/
def letterI : Re :=
  cls fun c => (65 ≤ c.toNat && c.toNat ≤ 90) || (97 ≤ c.toNat && c.toNat ≤ 122)

/-- The class `\d`. -/
def digit : Re := range '0' '9'

/-- The class `\s`. -/
def space : Re := cls isJsWhitespace

/-- Bounded repetition `a{1,2}`. -/
def oneOrTwo (a : Re) : Re := seq a (opt a)

end Re

/-- The pattern `/^([0-1]?[0-9]|2[0-3]):[0-5][0-9]$/` of `sanitizeTime`. -/
def timeRegex : Re :=
  .seq (.alt (.seq (.opt (Re.range '0' '1')) (Re.range '0' '9'))
             (.seq (Re.chr '2') (Re.range '0' '3')))
    (.seq (Re.chr ':') (.seq (Re.range '0' '5') (Re.range '0' '9')))

/-- The pattern `/^[A-Z]{1,2}\d{1,2}[A-Z]?\s?\d[A-Z]{2}$/i` of
`validatePostcode`. -/
def postcodeRegex : Re :=
  .seq (Re.oneOrTwo Re.letterI)
    (.seq (Re.oneOrTwo Re.digit)
      (.seq (.opt Re.letterI)
        (.seq (.opt Re.space)
          (.seq Re.digit (.seq Re.letterI Re.letterI)))))

/-! ## `Sanitizer` (src/js/sanitizer.js) -/

/-- Serialisation of a text node (`div.textContent = str; div.innerHTML`). -/
def escapeTextNode (cs : List Char) : List Char :=
  cs.flatMap fun c =>
    if c == '&' then "&amp;".data
    else if c.toNat == 0xA0 then "&nbsp;".data
    else if c == '<' then "&lt;".data
    else if c == '>' then "&gt;".data
    else [c]

/-- Source: `customSanitizeHTML(str)`. -/
def customSanitizeHTML (str : Option String) : String :=
  match str with
  | none => ""
  | some s => if s.data = [] then "" else ⟨escapeTextNode s.data⟩

/-- Source: `sanitizeHTML(dirty)`. -/
def sanitizeHTML (P : Platform) (dirty : Option String) : String :=
  if P.useDOMPurify then P.domPurify dirty else customSanitizeHTML dirty

/-- Source: `sanitizeText(input)`. -/
def sanitizeText (input : Option String) : String :=
  match input with
  | none => ""
  | some s =>
    if s.data = [] then ""
    else ⟨jsTrim (s.data.filter fun c => !(c == '<' || c == '>'))⟩

/-- Source: `sanitizeDate(dateStr)`. -/
def sanitizeDate (P : Platform) (dateStr : Option String) : Option String :=
  match dateStr with
  | none => none
  | some s =>
    if s.data = [] then none
    else if !P.dateIsValid s then none
    else some s

/-- Source: `sanitizeTime(timeStr)`. -/
def sanitizeTime (timeStr : Option String) : Option String :=
  match timeStr with
  | none => none
  | some s =>
    if s.data = [] then none
    else if !timeRegex.test s.data then none
    else some s

/-- Source: `validatePostcode(postcode)`. -/
def validatePostcode (postcode : Option String) : Bool :=
  match postcode with
  | none => true
  | some s =>
    if s.data = [] then true
    else postcodeRegex.test (jsTrim s.data)

/-- The characters that the `replace(/[^A-Z0-9\s]/g, '')` of `sanitizePostcode`
keeps: the class `[A-Z0-9\s]`. -/
def keptByPostcode (c : Char) : Bool :=
  (65 ≤ c.toNat && c.toNat ≤ 90) || (48 ≤ c.toNat && c.toNat ≤ 57) || isJsWhitespace c

/-- Source: `sanitizePostcode(postcode)`. -/
def sanitizePostcode (P : Platform) (postcode : Option String) : String :=
  match postcode with
  | none => ""
  | some s =>
    if s.data = [] then ""
    else
      ⟨jsTrim ((toUpperCase P s.data).filter keptByPostcode)⟩

/-! ## Objects, schemas (src/js/db.js) and the validation pipeline -/

/-- A dictionary object: its own entries, in `Object.entries` order. -/
abbrev Obj := List (String × Option String)

/-- Property read `o[k]`; a missing key reads as `undefined`. -/
def Obj.get (o : Obj) (k : String) : Option String :=
  match o.lookup k with
  | some v => v
  | none => none

/-- Property write `o[k] = v`: an existing key keeps its place, a new key is
added last. -/
def Obj.set (o : Obj) (k : String) (v : Option String) : Obj :=
  if o.any (fun e => e.1 == k) then o.map (fun e => if e.1 == k then (k, v) else e)
  else o ++ [(k, v)]

/-- The method `String.prototype.includes` on characters. -/
def includes (s sub : List Char) : Bool :=
  s.tails.any fun t => sub.isPrefixOf t

/-- One entry of a schema's `fields` array. -/
structure FieldSpec where
  name : String
  type : String
  label : String
  labelTr : String
  required : Bool
  deriving DecidableEq, Repr

/-- One value of `EVENT_SCHEMAS`. -/
structure Schema where
  fields : List FieldSpec
  title : String
  titleTr : String
  icon : String
  deriving DecidableEq, Repr

/-- Source: `EVENT_SCHEMAS.wedding`. -/
def weddingSchema : Schema where
  fields := [
    { name := "date", type := "date", label := "Date", labelTr := "Tarih", required := true },
    { name := "bride", type := "text", label := "Bride", labelTr := "Gelin", required := true },
    { name := "groom", type := "text", label := "Groom", labelTr := "Damat", required := true },
    { name := "place", type := "text", label := "Place", labelTr := "Mekan", required := true },
    { name := "postcode", type := "text", label := "Postcode", labelTr := "Posta Kodu",
      required := false } ]
  title := "Add New Wedding"
  titleTr := "Yeni Düğün Ekle"
  icon := "heart-fill"

/-- Source: `EVENT_SCHEMAS.funeral`. -/
def funeralSchema : Schema where
  fields := [
    { name := "date", type := "date", label := "Date", labelTr := "Tarih", required := true },
    { name := "deceased", type := "text", label := "Deceased Name", labelTr := "Merhumun Adı",
      required := true },
    { name := "place", type := "text", label := "Place", labelTr := "Mekan", required := true },
    { name := "time", type := "time", label := "Time", labelTr := "Saat", required := true },
    { name := "postcode", type := "text", label := "Postcode", labelTr := "Posta Kodu",
      required := false },
    { name := "notes", type := "textarea", label := "Notes", labelTr := "Notlar",
      required := false } ]
  title := "Add New Funeral"
  titleTr := "Yeni Cenaze Ekle"
  icon := "flower1"

/-- Source: `EVENT_SCHEMAS.breakfast`. -/
def breakfastSchema : Schema where
  fields := [
    { name := "date", type := "date", label := "Date", labelTr := "Tarih", required := true },
    { name := "time", type := "time", label := "Time", labelTr := "Saat", required := true },
    { name := "host", type := "text", label := "Organiser", labelTr := "Düzenleyen",
      required := true },
    { name := "place", type := "text", label := "Place", labelTr := "Mekan", required := true },
    { name := "address", type := "text", label := "Address", labelTr := "Adres",
      required := false },
    { name := "postcode", type := "text", label := "Postcode", labelTr := "Posta Kodu",
      required := false } ]
  title := "Add New Breakfast"
  titleTr := "Yeni Kahvaltı Ekle"
  icon := "cup-hot-fill"

/-- Source: `EVENT_SCHEMAS.musical`. -/
def musicalSchema : Schema where
  fields := [
    { name := "date", type := "date", label := "Date", labelTr := "Tarih", required := true },
    { name := "time", type := "time", label := "Time", labelTr := "Saat", required := true },
    { name := "performer", type := "text", label := "Performer", labelTr := "Sanatçı",
      required := true },
    { name := "eventName", type := "text", label := "Event Name", labelTr := "Etkinlik Adı",
      required := true },
    { name := "place", type := "text", label := "Venue", labelTr := "Mekan", required := true },
    { name := "address", type := "text", label := "Address", labelTr := "Adres",
      required := false },
    { name := "postcode", type := "text", label := "Postcode", labelTr := "Posta Kodu",
      required := false } ]
  title := "Add New Musical Event"
  titleTr := "Yeni Müzik Etkinliği Ekle"
  icon := "music-note-beamed"

/-- Source: the lookup `EVENT_SCHEMAS[eventType]`; `none` is `undefined`. -/
def EVENT_SCHEMAS (eventType : String) : Option Schema :=
  if eventType = "wedding" then some weddingSchema
  else if eventType = "funeral" then some funeralSchema
  else if eventType = "breakfast" then some breakfastSchema
  else if eventType = "musical" then some musicalSchema
  else none

/-- The branch of `sanitizeFormData`'s loop body: the sanitized value stored
under `key`. -/
def sanitizeField (P : Platform) (key : String) (value : Option String) : Option String :=
  if key = "date" then sanitizeDate P value
  else if key = "time" then sanitizeTime value
  else if key = "postcode" then some (sanitizePostcode P value)
  else if key = "notes" || includes key.data "address".data then some (sanitizeHTML P value)
  else some (sanitizeText value)

/-- Source: `sanitizeFormData(formData)`: one entry of the result per entry
of the input, under the same key. -/
def sanitizeFormData (P : Platform) (formData : Obj) : Obj :=
  formData.map fun e => (e.1, sanitizeField P e.1 e.2)

/-- The object `{ isValid, errors }` built by `validateRequired`. -/
structure Validation where
  isValid : Bool
  errors : List String
  deriving DecidableEq, Repr

/-- The object `{ isValid, errors, data }` returned by `validateAndSanitize`. -/
structure ValidationResult where
  isValid : Bool
  errors : List String
  data : Obj
  deriving DecidableEq, Repr

/-- The message pushed for a required field. -/
def requiredMessage (field : FieldSpec) : String := field.label ++ " is required"

/-- Source: `validateRequired(formData, schema)`; the `forEach` with its
`errors.push` is a left fold. -/
def validateRequired (formData : Obj) (schema : Schema) : Validation :=
  let errors := schema.fields.foldl
    (fun errors field =>
      if field.required && !truthy (formData.get field.name) then
        errors ++ [requiredMessage field]
      else errors) []
  { isValid := errors.length == 0, errors := errors }

/-- Source: `validateAndSanitize(formData, schema)`. -/
def validateAndSanitize (P : Platform) (formData : Obj) (schema : Schema) :
    ValidationResult :=
  let sanitized := sanitizeFormData P formData
  let v0 := validateRequired sanitized schema
  let v1 : Validation :=
    if truthy (sanitized.get "postcode") && !validatePostcode (sanitized.get "postcode") then
      { isValid := false, errors := v0.errors ++ ["Invalid UK postcode format"] }
    else v0
  let v2 : Validation :=
    if truthy (sanitized.get "date") && !truthy (sanitizeDate P (sanitized.get "date")) then
      { isValid := false, errors := v1.errors ++ ["Invalid date format"] }
    else v1
  let v3 : Validation :=
    if truthy (sanitized.get "time") && !truthy (sanitizeTime (sanitized.get "time")) then
      { isValid := false, errors := v2.errors ++ ["Invalid time format"] }
    else v2
  { isValid := v3.isValid, errors := v3.errors, data := sanitized }

/-! ## The saving handlers of `App` (src/js/main.js)

The handlers reach the store only through `dbOperations.addEvent` and
`dbOperations.updateEvent`.  They are embedded over an arbitrary store type
`σ` and an arbitrary behaviour `exec` of these two operations, which returns
the new store and the `success` flag of the result. -/

/-- A mutating call on `dbOperations` made by a handler. -/
inductive DbCall where
  | addEvent (eventData : Obj)
  | updateEvent (id : Nat) (updates : Obj)
  deriving DecidableEq, Repr

/-- The state the handlers read and write: the store, `ui.currentEventType`,
`this.editingEventId`, and the mutating store calls issued so far. -/
structure App (σ : Type) where
  store : σ
  currentEventType : Option String
  editingEventId : Option Nat
  calls : List DbCall

/-- Issue one store call: run it and record it. -/
def App.issue {σ : Type} (exec : σ → DbCall → σ × Bool) (app : App σ) (c : DbCall) :
    App σ × Bool :=
  let r := exec app.store c
  ({ app with store := r.1, calls := app.calls ++ [c] }, r.2)

/-- Source: `handleFormSubmit()`, with `data` the object collected from the
form.  A schema that is `undefined` makes `validateAndSanitize` throw, which
the handler's `catch` absorbs.  The reset of `ui.currentEventType` that
`ui.hideForm()` schedules on a timer runs after the handler and is not part
of it. -/
def handleFormSubmit {σ : Type} (P : Platform) (exec : σ → DbCall → σ × Bool)
    (app : App σ) (data : Obj) : App σ :=
  match app.currentEventType with
  | none => app
  | some eventType =>
    if eventType.data = [] then app
    else
      match EVENT_SCHEMAS eventType with
      | none => app
      | some schema =>
        let validation := validateAndSanitize P data schema
        if !validation.isValid then app
        else
          let eventData := validation.data.set "type" (some eventType)
          match app.editingEventId with
          | some (id + 1) =>
            let r := app.issue exec (.updateEvent (id + 1) eventData)
            if r.2 then { r.1 with editingEventId := none } else r.1
          | _ => (app.issue exec (.addEvent eventData)).1

/-- Source: `handleSaveEdit(id)`; `row` is the element found by the
`data-id` query (`none` when there is none), given by its `data-type` and the
object collected from its `.edit-input` fields. -/
def handleSaveEdit {σ : Type} (P : Platform) (exec : σ → DbCall → σ × Bool)
    (app : App σ) (id : Nat) (row : Option (String × Obj)) : App σ :=
  match row with
  | none => app
  | some (eventType, data) =>
    match EVENT_SCHEMAS eventType with
    | none => app
    | some schema =>
      let validation := validateAndSanitize P data schema
      if !validation.isValid then app
      else
        let r := app.issue exec (.updateEvent id validation.data)
        if r.2 then { r.1 with editingEventId := none } else r.1

/-- A browser stand-in for concrete evaluations: dates are accepted in the
form `YYYY-MM-DD` (digits only checked), non-ASCII characters have no
upper-case mapping, DOMPurify is absent. -/
def samplePlatform : Platform where
  dateIsValid := fun s =>
    match s.data with
    | [y1, y2, y3, y4, '-', m1, m2, '-', d1, d2] =>
      [y1, y2, y3, y4, m1, m2, d1, d2].all Char.isDigit
    | _ => false
  upperNonAscii := fun c => [c]
  useDOMPurify := false
  domPurify := fun _ => ""

/-- A store that only logs the calls it receives and reports success. -/
def logExec (st : List DbCall) (c : DbCall) : List DbCall × Bool := (st ++ [c], true)

/-- The postcode error of `validateAndSanitize`, as a list of zero or one
message. -/
def postcodeErrors (sanitized : Obj) : List String :=
  if truthy (sanitized.get "postcode") && !validatePostcode (sanitized.get "postcode") then
    ["Invalid UK postcode format"]
  else []

/-- The required-field messages for a sanitized object, in schema order. -/
def requiredErrors (sanitized : Obj) (schema : Schema) : List String :=
  (schema.fields.filter fun f => f.required && !truthy (sanitized.get f.name)).map
    requiredMessage

/-- The date-format error of `validateAndSanitize`, as a list of zero or one
message. -/
def dateErrors (P : Platform) (sanitized : Obj) : List String :=
  if truthy (sanitized.get "date") && !truthy (sanitizeDate P (sanitized.get "date")) then
    ["Invalid date format"]
  else []

/-- The time-format error of `validateAndSanitize`, as a list of zero or one
message. -/
def timeErrors (sanitized : Obj) : List String :=
  if truthy (sanitized.get "time") && !truthy (sanitizeTime (sanitized.get "time")) then
    ["Invalid time format"]
  else []

/-- The form of the funeral scenario: every field submitted empty. -/
def emptyFuneralForm : Obj :=
  [("date", some ""), ("deceased", some ""), ("place", some ""), ("time", some "")]

/-- The form of the wedding scenario. -/
def adaAlanForm : Obj :=
  [("date", some "2025-06-01"), ("bride", some "Ada"), ("groom", some "Alan"),
   ("place", some "Hall")]

/-- Replace the submitted postcode value, leaving every other entry as it is. -/
def withPostcode (formData : Obj) (v : Option String) : Obj :=
  formData.map fun e => if e.1 = "postcode" then (e.1, v) else e

/-! ## Shapes named by the specification -/

/-- An ASCII decimal digit. -/
def isDigitChar (c : Char) : Bool := 48 ≤ c.toNat && c.toNat ≤ 57

/-- An ASCII letter of either case. -/
def isLetterChar (c : Char) : Bool :=
  (65 ≤ c.toNat && c.toNat ≤ 90) || (97 ≤ c.toNat && c.toNat ≤ 122)

/-- The value of a decimal digit. -/
def digitValue (c : Char) : Nat := c.toNat - 48

/-- Two digits forming a minute `00` to `59`. -/
def isMinute (m1 m2 : Char) : Bool :=
  isDigitChar m1 && isDigitChar m2 && 10 * digitValue m1 + digitValue m2 ≤ 59

/-- Strict `HH:MM` in the specification's words: exactly two digits forming
an hour `00` to `23`, a colon, exactly two digits forming a minute `00` to
`59`. -/
def isStrictHHMM (cs : List Char) : Bool :=
  match cs with
  | [h1, h2, c, m1, m2] =>
    isDigitChar h1 && isDigitChar h2 && 10 * digitValue h1 + digitValue h2 ≤ 23 &&
      c == ':' && isMinute m1 m2
  | _ => false

/-- The shape `H:MM`: an hour written with the single digit `0` to `9`, a
colon, and a minute `00` to `59`. -/
def isShortHMM (cs : List Char) : Bool :=
  match cs with
  | [h, c, m1, m2] => isDigitChar h && c == ':' && isMinute m1 m2
  | _ => false

/-- The ways to split a postcode: the numbers of leading letters (one or
two), of digits (one or two), of optional letters and of optional spaces. -/
def postcodeSplits : List (Nat × Nat × Nat × Nat) :=
  [1, 2].product ([1, 2].product ([0, 1].product [0, 1]))

/-- The postcode shape at one split: the leading letters, the digits, the
optional letter, the optional space, then a digit and two letters. -/
def shapeAt (t : Nat × Nat × Nat × Nat) (cs : List Char) : Bool :=
  let r1 := cs.drop t.1
  let r2 := r1.drop t.2.1
  let r3 := r2.drop t.2.2.1
  let r4 := r3.drop t.2.2.2
  cs.length == t.1 + t.2.1 + t.2.2.1 + t.2.2.2 + 3 &&
  (cs.take t.1).all isLetterChar &&
  (r1.take t.2.1).all isDigitChar &&
  (r2.take t.2.2.1).all isLetterChar &&
  (r3.take t.2.2.2).all (fun c => c == ' ') &&
  (r4.take 1).all isDigitChar &&
  (r4.drop 1).all isLetterChar

/-- The UK postcode shape in the specification's words: one or two letters,
one or two digits, an optional letter, an optional space, a digit, two
letters. -/
def ukPostcodeShape (cs : List Char) : Bool :=
  postcodeSplits.any fun t => shapeAt t cs

/-- The same shape as a decomposition of the string into its parts. -/
def PostcodeParts (cs : List Char) : Prop :=
  ∃ (L D O S : List Char) (x y z : Char),
    cs = L ++ (D ++ (O ++ (S ++ [x, y, z]))) ∧
    (1 ≤ L.length ∧ L.length ≤ 2 ∧ ∀ c ∈ L, isLetterChar c = true) ∧
    (1 ≤ D.length ∧ D.length ≤ 2 ∧ ∀ c ∈ D, isDigitChar c = true) ∧
    (O.length ≤ 1 ∧ ∀ c ∈ O, isLetterChar c = true) ∧
    (S.length ≤ 1 ∧ ∀ c ∈ S, c = ' ') ∧
    isDigitChar x = true ∧ isLetterChar y = true ∧ isLetterChar z = true

/-- The wedding form with an extra, invalid `time` entry. -/
def weddingFormWithBadTime : Obj :=
  [("date", some "2025-06-01"), ("bride", some "Ada"), ("groom", some "Alan"),
   ("place", some "Hall"), ("time", some "24:00")]

/-! ## The `events` table and `dbOperations` (src/js/db.js)

`db.events` is a Dexie table declared `'++id, type, date, *searchFields'`.
Its state is the list of stored objects in primary-key order together with
the current number of the key generator.  The operations of `dbOperations`
take, besides their arguments, what the environment decides: the clock
reading `now` of `new Date().toISOString()`, the function `parse` giving
`new Date(s).getTime()` (`none` is `NaN`), and `fault`, the message of the
error with which the awaited Dexie call rejects when the underlying medium
refuses the request, leaving the table as it was (`none` when the medium
serves the request). -/

/-- A stored object of the table: its primary key `id` and its other
attributes. -/
structure EventRecord where
  id : Nat
  attrs : Obj
  deriving DecidableEq, Repr

/-- The state of the table: the stored objects in primary-key order and the
current number of the key generator of `++id`. -/
structure Store where
  rows : List EventRecord
  nextKey : Nat
  deriving DecidableEq, Repr

/-- A freshly created table: no object, key generator at 1. -/
def Store.empty : Store := { rows := [], nextKey := 1 }

/-- The invariant of the table: keys strictly increase along the stored
objects and stay below the key generator's current number. -/
def Store.WF (st : Store) : Prop :=
  st.rows.Pairwise (fun a b => a.id < b.id) ∧ ∀ r ∈ st.rows, r.id < st.nextKey

/-- Modelled from the spec: Dexie's `Table.add` on the store declared `++id`
(the library, `libs/dexie.min.js`, is not among the sources; its documented
behaviour is followed).  An object without an `id` property receives the key
generator's current number as its key, is stored last in key order, and the
generator advances; the call resolves with the key.  An object that brings
its own `id` is outside the modelled fragment (`none`). -/
def Table.add (st : Store) (obj : Obj) : Option (Store × Nat) :=
  match obj.lookup "id" with
  | some _ => none
  | none =>
    some ({ rows := st.rows ++ [{ id := st.nextKey, attrs := obj }],
            nextKey := st.nextKey + 1 }, st.nextKey)

/-- Modelled from the spec: Dexie's `Table.toArray` (library code, not among
the sources): the stored objects in primary-key order. -/
def Table.toArray (st : Store) : List EventRecord := st.rows

/-- Modelled from the spec: Dexie's `where('type').equals(type).toArray()`
(library code, not among the sources): the stored objects whose `type` is the
given string, in primary-key order. -/
def Table.whereTypeEquals (st : Store) (type : String) : List EventRecord :=
  st.rows.filter fun r => r.attrs.get "type" == some type

/-- The changes the modelled fragment of `Table.update` covers: no change
names the primary key `id`, and no name is a key path with a dot. -/
def plainChanges (changes : Obj) : Bool :=
  changes.all fun e => e.1 != "id" && !e.1.data.contains '.'

/-- The changes written into an object one by one, in `Object.keys` order. -/
def applyChanges (attrs changes : Obj) : Obj :=
  changes.foldl (fun a e => a.set e.1 e.2) attrs

/-- Modelled from the spec: Dexie's `Table.update(key, changes)` (library
code, not among the sources; its documented behaviour is followed).  The
changes are merged into the object stored under the key; when no object has
the key nothing is changed, and the call resolves all the same (with the
number of objects updated, which `updateEvent` does not read).  Changes that
name `id` or a dotted key path are outside the modelled fragment (`none`). -/
def Table.update (st : Store) (key : Nat) (changes : Obj) : Option Store :=
  if plainChanges changes then
    some { st with
      rows := st.rows.map fun r =>
        if r.id = key then { r with attrs := applyChanges r.attrs changes } else r }
  else none

/-- Modelled from the spec: Dexie's `Table.delete(key)` (library code, not
among the sources; its documented behaviour is followed): the object stored
under the key is removed; the call resolves whether or not there was one. -/
def Table.delete (st : Store) (key : Nat) : Store :=
  { st with rows := st.rows.filter fun r => r.id != key }

/-- Modelled from the spec: Dexie's `Table.clear()` (library code, not among
the sources): every object is removed; the key generator keeps its number. -/
def Table.clear (st : Store) : Store := { st with rows := [] }

/-- The object `{ success, id, error }` returned by the mutating operations
(`id` and `error` are present only in the results that carry them). -/
structure OpResult where
  success : Bool
  id : Option Nat
  error : Option String
  deriving DecidableEq, Repr

/-- The abstract operation `SortCompare` of `Array.prototype.sort`: a
comparator result that is `NaN` counts as `+0`. -/
def sortCompare (v : Option Int) : Int := v.getD 0

/-- A stable insertion: `x` goes in front of the first element it is not
greater than. -/
def stableInsert {α : Type} (le : α → α → Bool) (x : α) : List α → List α
  | [] => [x]
  | y :: ys => if le x y then x :: y :: ys else y :: stableInsert le x ys

/-- A stable sort by insertion, the first element being inserted last. -/
def stableSort {α : Type} (le : α → α → Bool) : List α → List α
  | [] => []
  | x :: xs => stableInsert le x (stableSort le xs)

/-- The method `Array.prototype.sort(compareFn)`, which is stable.  With a
consistent comparator every stable sort returns this list; where the
comparator is not consistent (it returns `NaN`) the standard leaves the order
to the engine, and the embedding keeps the result of the stable insertion. -/
def jsSort {α : Type} (compareFn : α → α → Option Int) (xs : List α) : List α :=
  stableSort (fun a b => sortCompare (compareFn a b) ≤ 0) xs

/-- The timestamp of `new Date(a.date || 0)`; `none` is the `NaN` of an
invalid date. -/
def dateOf (parse : String → Option Int) (a : EventRecord) : Option Int :=
  match a.attrs.get "date" with
  | none => some 0
  | some s => if s.data = [] then some 0 else parse s

/-- The comparator of both listings: `dateA - dateB`, which is `NaN` when
either date is invalid. -/
def compareByDate (parse : String → Option Int) (a b : EventRecord) : Option Int :=
  match dateOf parse a, dateOf parse b with
  | some x, some y => some (x - y)
  | _, _ => none

/-- The timestamp the specification sorts by: the parsed date, a missing or
unparseable date counting as epoch zero. -/
def timestampOf (parse : String → Option Int) (a : EventRecord) : Int :=
  (dateOf parse a).getD 0

/-- Source: `dbOperations.addEvent(eventData)`. -/
def dbOperations.addEvent (now : String) (fault : Option String) (st : Store)
    (eventData : Obj) : Option (Store × OpResult) :=
  match fault with
  | some message => some (st, { success := false, id := none, error := some message })
  | none =>
    match Table.add st (eventData.set "createdAt" (some now)) with
    | some (st1, id) => some (st1, { success := true, id := some id, error := none })
    | none => none

/-- Source: `dbOperations.getAllEvents()`. -/
def dbOperations.getAllEvents (parse : String → Option Int) (fault : Option String)
    (st : Store) : List EventRecord :=
  match fault with
  | some _ => []
  | none => jsSort (compareByDate parse) (Table.toArray st)

/-- Source: `dbOperations.getEventsByType(type)`. -/
def dbOperations.getEventsByType (parse : String → Option Int) (fault : Option String)
    (st : Store) (type : String) : List EventRecord :=
  match fault with
  | some _ => []
  | none => jsSort (compareByDate parse) (Table.whereTypeEquals st type)

/-- Source: `dbOperations.updateEvent(id, updates)`. -/
def dbOperations.updateEvent (now : String) (fault : Option String) (st : Store)
    (id : Nat) (updates : Obj) : Option (Store × OpResult) :=
  match fault with
  | some message => some (st, { success := false, id := none, error := some message })
  | none =>
    match Table.update st id (updates.set "updatedAt" (some now)) with
    | some st1 => some (st1, { success := true, id := none, error := none })
    | none => none

/-- Source: `dbOperations.deleteEvent(id)`. -/
def dbOperations.deleteEvent (fault : Option String) (st : Store) (id : Nat) :
    Store × OpResult :=
  match fault with
  | some message => (st, { success := false, id := none, error := some message })
  | none => (Table.delete st id, { success := true, id := none, error := none })

/-- Source: `dbOperations.clearAll()`. -/
def dbOperations.clearAll (fault : Option String) (st : Store) : Store × OpResult :=
  match fault with
  | some message => (st, { success := false, id := none, error := some message })
  | none => (Table.clear st, { success := true, id := none, error := none })

/-- Days from 1970-01-01 to a civil date of the proleptic Gregorian
calendar. -/
def daysFromCivil (y m d : Int) : Int :=
  let y1 := if m ≤ 2 then y - 1 else y
  let era := y1 / 400
  let yoe := y1 - era * 400
  let doy := (153 * (if m > 2 then m - 3 else m + 9) + 2) / 5 + d - 1
  let doe := yoe * 365 + yoe / 4 - yoe / 100 + doy
  era * 146097 + doe - 719468

/-- A stand-in for `new Date(s).getTime()` in concrete evaluations: a string
`YYYY-MM-DD` with a month 1 to 12 and a day 1 to 31 reads as midnight UTC of
that day, every other string as `NaN`. -/
def sampleParse (s : String) : Option Int :=
  match s.data with
  | [y1, y2, y3, y4, c1, m1, m2, c2, d1, d2] =>
    if [y1, y2, y3, y4, m1, m2, d1, d2].all isDigitChar && c1 == '-' && c2 == '-' then
      let y : Int := 1000 * digitValue y1 + 100 * digitValue y2 + 10 * digitValue y3 +
        digitValue y4
      let m : Int := 10 * digitValue m1 + digitValue m2
      let d : Int := 10 * digitValue d1 + digitValue d2
      if 1 ≤ m && m ≤ 12 && 1 ≤ d && d ≤ 31 then some (daysFromCivil y m d * 86400000)
      else none
    else none
  | _ => none

/-- A table holding one wedding, stored under key 1. -/
def oneWeddingStore : Store :=
  { rows := [{ id := 1, attrs := [("date", some "2025-06-01"), ("bride", some "Ada"),
      ("groom", some "Alan"), ("place", some "Hall"), ("type", some "wedding"),
      ("createdAt", some "2025-01-01T10:00:00.000Z")] }],
    nextKey := 2 }

/-- A table whose second object carries a date that does not parse. -/
def undatedStore : Store :=
  { rows := [{ id := 1, attrs := [("date", some "2025-06-01"), ("type", some "wedding")] },
             { id := 2, attrs := [("date", some "someday"), ("type", some "funeral")] },
             { id := 3, attrs := [("date", some "2024-06-01"), ("type", some "wedding")] }],
    nextKey := 4 }

/-- A table of three weddings with parseable dates, two on the same day. -/
def threeWeddingsStore : Store :=
  { rows := [{ id := 1, attrs := [("date", some "2025-06-01"), ("type", some "wedding")] },
             { id := 2, attrs := [("date", some "2024-06-01"), ("type", some "wedding")] },
             { id := 3, attrs := [("date", some "2025-06-01"), ("type", some "funeral")] }],
    nextKey := 4 }

/-- The object stored under `r`'s key after `updateEvent` merged `updates`
at the clock reading `now`. -/
def updatedRecord (now : String) (r : EventRecord) (updates : Obj) : EventRecord :=
  { r with attrs := applyChanges r.attrs (updates.set "updatedAt" (some now)) }

/-- The table after `updateEvent(id, updates)` was served at `now`. -/
def updatedStore (now : String) (st : Store) (id : Nat) (updates : Obj) : Store :=
  { st with rows := st.rows.map fun r => if r.id = id then updatedRecord now r updates else r }

/-- A table of two weddings, the second with a date that does not parse. -/
def twoDatesStore : Store :=
  { rows := [{ id := 1, attrs := [("date", some "2025-06-01"), ("type", some "wedding")] },
             { id := 2, attrs := [("date", some "someday"), ("type", some "wedding")] }],
    nextKey := 3 }

/-! ## Auxiliary lemmas -/

theorem truthy_some (s : String) : truthy (some s) = true ↔ s.data ≠ [] := by
  simp [truthy]

theorem foldl_required (d : Obj) (fields : List FieldSpec) (acc : List String) :
    fields.foldl
      (fun errors field =>
        if field.required && !truthy (d.get field.name) then
          errors ++ [requiredMessage field]
        else errors) acc =
    acc ++ (fields.filter fun f => f.required && !truthy (d.get f.name)).map requiredMessage := by
  induction fields generalizing acc with
  | nil => simp
  | cons f fs ih =>
    simp only [List.foldl_cons, List.filter_cons]
    by_cases h : (f.required && !truthy (d.get f.name)) = true
    · rw [if_pos h, if_pos h, ih]; simp
    · rw [if_neg h, if_neg h, ih]

/-- The errors of `validateRequired`, as a filter over the schema's fields. -/
theorem validateRequired_errors (d : Obj) (schema : Schema) :
    (validateRequired d schema).errors =
      (schema.fields.filter fun f => f.required && !truthy (d.get f.name)).map
        requiredMessage := by
  simp only [validateRequired]
  rw [foldl_required]; simp

theorem validateRequired_isValid (d : Obj) (schema : Schema) :
    (validateRequired d schema).isValid = ((validateRequired d schema).errors.length == 0) := by
  simp [validateRequired]

/-- Reading a key of the sanitized object. -/
theorem get_sanitizeFormData (P : Platform) (d : Obj) (k : String) :
    (sanitizeFormData P d).get k =
      match d.lookup k with
      | some v => sanitizeField P k v
      | none => none := by
  induction d with
  | nil => simp [sanitizeFormData, Obj.get]
  | cons e es ih =>
    simp only [sanitizeFormData, Obj.get, List.map_cons, List.lookup] at ih ⊢
    by_cases h : (k == e.1) = true
    · simp only [h]
      have : e.1 = k := by simpa using Eq.symm (beq_iff_eq.mp h)
      rw [this]
    · simp only [Bool.not_eq_true] at h
      simp only [h]
      exact ih

theorem sanitizeDate_truthy (P : Platform) (v : Option String) :
    truthy (sanitizeDate P v) = true →
      ∃ s, v = some s ∧ sanitizeDate P v = some s ∧ P.dateIsValid s = true := by
  intro h
  cases v with
  | none => simp [sanitizeDate, truthy] at h
  | some s =>
    refine ⟨s, rfl, ?_⟩
    simp only [sanitizeDate] at h ⊢
    by_cases h1 : s.data = []
    · simp [h1, truthy] at h
    · by_cases h2 : P.dateIsValid s = true
      · simp [h1, h2]
      · simp [h1, h2, truthy] at h

theorem sanitizeTime_truthy (v : Option String) :
    truthy (sanitizeTime v) = true →
      ∃ s, v = some s ∧ sanitizeTime v = some s ∧ timeRegex.test s.data = true := by
  intro h
  cases v with
  | none => simp [sanitizeTime, truthy] at h
  | some s =>
    refine ⟨s, rfl, ?_⟩
    simp only [sanitizeTime] at h ⊢
    by_cases h1 : s.data = []
    · simp [h1, truthy] at h
    · by_cases h2 : timeRegex.test s.data = true
      · simp [h1, h2]
      · simp [h1, h2, truthy] at h

/-- The date check of `validateAndSanitize` never fires: a truthy sanitized
date passes `sanitizeDate` again. -/
theorem date_recheck (P : Platform) (d : Obj) :
    (truthy ((sanitizeFormData P d).get "date") &&
      !truthy (sanitizeDate P ((sanitizeFormData P d).get "date"))) = false := by
  rw [get_sanitizeFormData]
  cases hl : d.lookup "date" with
  | none => simp [truthy]
  | some v =>
    simp only [sanitizeField, if_true]
    by_cases h : truthy (sanitizeDate P v) = true
    · obtain ⟨s, -, h2, h3⟩ := sanitizeDate_truthy P v h
      have h4 : s.data ≠ [] := by rw [h2] at h; simpa [truthy] using h
      have : sanitizeDate P (some s) = some s := by simp [sanitizeDate, h3, h4]
      rw [h2, this]; simp [truthy, h4]
    · simp [h]

/-- The time check of `validateAndSanitize` never fires either. -/
theorem time_recheck (P : Platform) (d : Obj) :
    (truthy ((sanitizeFormData P d).get "time") &&
      !truthy (sanitizeTime ((sanitizeFormData P d).get "time"))) = false := by
  rw [get_sanitizeFormData]
  cases hl : d.lookup "time" with
  | none => simp [truthy]
  | some v =>
    have hk : sanitizeField P "time" v = sanitizeTime v := by
      simp [sanitizeField]
    show (truthy (sanitizeField P "time" v) &&
      !truthy (sanitizeTime (sanitizeField P "time" v))) = false
    rw [hk]
    by_cases h : truthy (sanitizeTime v) = true
    · obtain ⟨s, -, h2, h3⟩ := sanitizeTime_truthy v h
      have h4 : s.data ≠ [] := by rw [h2] at h; simpa [truthy] using h
      have : sanitizeTime (some s) = some s := by simp [sanitizeTime, h3, h4]
      rw [h2, this]; simp [truthy, h4]
    · simp [h]

theorem validateAndSanitize_data (P : Platform) (d : Obj) (schema : Schema) :
    (validateAndSanitize P d schema).data = sanitizeFormData P d := rfl

theorem validateAndSanitize_errors (P : Platform) (d : Obj) (schema : Schema) :
    (validateAndSanitize P d schema).errors =
      requiredErrors (sanitizeFormData P d) schema ++ postcodeErrors (sanitizeFormData P d) := by
  simp only [validateAndSanitize, date_recheck, time_recheck, Bool.false_eq_true, if_false,
    postcodeErrors, requiredErrors]
  split <;> simp [validateRequired_errors]

theorem validateAndSanitize_isValid (P : Platform) (d : Obj) (schema : Schema) :
    (validateAndSanitize P d schema).isValid =
      ((validateAndSanitize P d schema).errors.length == 0) := by
  rw [validateAndSanitize_errors]
  simp only [validateAndSanitize, date_recheck, time_recheck, Bool.false_eq_true, if_false,
    postcodeErrors, requiredErrors]
  split <;> simp [validateRequired_isValid, validateRequired_errors]

theorem dateErrors_eq_nil (P : Platform) (d : Obj) :
    dateErrors P (sanitizeFormData P d) = [] := by
  simp only [dateErrors, date_recheck, Bool.false_eq_true, if_false]

theorem timeErrors_eq_nil (P : Platform) (d : Obj) :
    timeErrors (sanitizeFormData P d) = [] := by
  simp only [timeErrors, time_recheck, Bool.false_eq_true, if_false]

theorem required_of_isValid (P : Platform) (d : Obj) (schema : Schema)
    (h : (validateAndSanitize P d schema).isValid = true) (f : FieldSpec)
    (hf : f ∈ schema.fields) (hr : f.required = true) :
    truthy ((sanitizeFormData P d).get f.name) = true := by
  rw [validateAndSanitize_isValid, validateAndSanitize_errors] at h
  simp only [requiredErrors, List.length_append, List.length_map, beq_iff_eq,
    Nat.add_eq_zero, List.length_eq_zero, List.filter_eq_nil_iff] at h
  have := h.1 f hf
  simpa [hr] using this

theorem isValid_false_of_required_empty (P : Platform) (d : Obj) (schema : Schema)
    (f : FieldSpec) (hf : f ∈ schema.fields) (hr : f.required = true)
    (he : truthy ((sanitizeFormData P d).get f.name) = false) :
    (validateAndSanitize P d schema).isValid = false := by
  by_contra hv
  simp only [Bool.not_eq_false] at hv
  have := required_of_isValid P d schema hv f hf hr
  rw [he] at this
  exact Bool.false_ne_true this

theorem withPostcode_cons (e : String × Option String) (es : Obj) (v : Option String) :
    withPostcode (e :: es) v =
      (if e.1 = "postcode" then (e.1, v) else e) :: withPostcode es v := rfl

theorem lookup_withPostcode (d : Obj) (v : Option String) (k : String) (hk : k ≠ "postcode") :
    (withPostcode d v).lookup k = d.lookup k := by
  induction d with
  | nil => rfl
  | cons e es ih =>
    obtain ⟨ek, ev⟩ := e
    rw [withPostcode_cons]
    by_cases h : ek = "postcode"
    · subst h
      have hne : (k == "postcode") = false := by simp [hk]
      rw [if_pos (show ("postcode", ev).1 = "postcode" from rfl)]
      simp only [List.lookup, hne, ih]
    · rw [if_neg (show ¬ (ek, ev).1 = "postcode" from h)]
      simp only [List.lookup, ih]

theorem date_field_mem (t : String) (schema : Schema) (hs : EVENT_SCHEMAS t = some schema) :
    ∃ f ∈ schema.fields, f.name = "date" ∧ f.required = true := by
  simp only [EVENT_SCHEMAS] at hs
  split_ifs at hs <;> simp only [Option.some.injEq] at hs <;> subst hs <;>
    exact ⟨_, List.mem_cons_self _ _, rfl, rfl⟩

theorem validationResult_eta (r : ValidationResult) :
    r = { isValid := r.isValid, errors := r.errors, data := r.data } := by
  cases r; rfl

theorem handleFormSubmit_invalid {σ : Type} (P : Platform) (exec : σ → DbCall → σ × Bool)
    (app : App σ) (t : String) (schema : Schema) (data : Obj)
    (ht : app.currentEventType = some t) (hs : EVENT_SCHEMAS t = some schema)
    (hv : (validateAndSanitize P data schema).isValid = false) :
    handleFormSubmit P exec app data = app := by
  unfold handleFormSubmit
  rw [ht]
  simp only [hs, hv]
  split <;> rfl

theorem handleSaveEdit_invalid {σ : Type} (P : Platform) (exec : σ → DbCall → σ × Bool)
    (app : App σ) (id : Nat) (t : String) (schema : Schema) (data : Obj)
    (hs : EVENT_SCHEMAS t = some schema)
    (hv : (validateAndSanitize P data schema).isValid = false) :
    handleSaveEdit P exec app id (some (t, data)) = app := by
  unfold handleSaveEdit
  simp only [hs, hv]
  rfl

theorem funeral_scenario (P : Platform) :
    validateAndSanitize P emptyFuneralForm funeralSchema =
      { isValid := false,
        errors := ["Date is required", "Deceased Name is required", "Place is required",
          "Time is required"],
        data := [("date", none), ("deceased", some ""), ("place", some ""), ("time", none)] } := by
  have hsan : sanitizeFormData P emptyFuneralForm =
      [("date", none), ("deceased", some ""), ("place", some ""), ("time", none)] := rfl
  have he := validateAndSanitize_errors P emptyFuneralForm funeralSchema
  have hv := validateAndSanitize_isValid P emptyFuneralForm funeralSchema
  rw [hsan] at he
  have he2 : (validateAndSanitize P emptyFuneralForm funeralSchema).errors =
      ["Date is required", "Deceased Name is required", "Place is required",
          "Time is required"] := by rw [he]; decide
  rw [he2] at hv
  rw [validationResult_eta (validateAndSanitize P emptyFuneralForm funeralSchema), he2, hv,
    validateAndSanitize_data, hsan]
  rfl

theorem wedding_sanitized (P : Platform) (hd : P.dateIsValid "2025-06-01" = true) :
    sanitizeFormData P adaAlanForm = adaAlanForm := by
  have h1 : sanitizeField P "date" (some "2025-06-01") = some "2025-06-01" := by
    have : sanitizeField P "date" (some "2025-06-01") =
        sanitizeDate P (some "2025-06-01") := rfl
    rw [this]
    simp [sanitizeDate, hd]
  show [("date", sanitizeField P "date" (some "2025-06-01")),
    ("bride", sanitizeField P "bride" (some "Ada")),
    ("groom", sanitizeField P "groom" (some "Alan")),
    ("place", sanitizeField P "place" (some "Hall"))] = adaAlanForm
  rw [h1]
  rfl

theorem wedding_scenario (P : Platform) (hd : P.dateIsValid "2025-06-01" = true) :
    validateAndSanitize P adaAlanForm weddingSchema =
      { isValid := true, errors := [], data := adaAlanForm } := by
  have hsan := wedding_sanitized P hd
  have he := validateAndSanitize_errors P adaAlanForm weddingSchema
  have hv := validateAndSanitize_isValid P adaAlanForm weddingSchema
  rw [hsan] at he
  have he2 : (validateAndSanitize P adaAlanForm weddingSchema).errors = [] := by
    rw [he]; decide
  rw [he2] at hv
  rw [validationResult_eta (validateAndSanitize P adaAlanForm weddingSchema), he2, hv,
    validateAndSanitize_data, hsan]
  rfl

theorem validateAndSanitize_errors_full (P : Platform) (d : Obj) (schema : Schema) :
    (validateAndSanitize P d schema).errors =
      requiredErrors (sanitizeFormData P d) schema ++ postcodeErrors (sanitizeFormData P d) ++
        dateErrors P (sanitizeFormData P d) ++ timeErrors (sanitizeFormData P d) := by
  rw [dateErrors_eq_nil, timeErrors_eq_nil, validateAndSanitize_errors]
  simp

theorem get_withPostcode (P : Platform) (d : Obj) (v : Option String) (k : String)
    (hk : k ≠ "postcode") :
    (sanitizeFormData P (withPostcode d v)).get k = (sanitizeFormData P d).get k := by
  rw [get_sanitizeFormData, get_sanitizeFormData, lookup_withPostcode d v k hk]

theorem char_eq_iff_toNat (c x : Char) : c = x ↔ c.toNat = x.toNat := by
  constructor
  · intro h; rw [h]
  · intro h
    apply Char.ext
    apply UInt32.ext
    exact h

namespace Re

theorem test_cls_nil (p : Char → Bool) : test (cls p) [] = false := rfl

theorem test_cls_one (p : Char → Bool) (c : Char) : test (cls p) [c] = p c := by
  cases h : p c <;> simp [test, run, h]

theorem test_cls_more (p : Char → Bool) (c d : Char) (cs : List Char) :
    test (cls p) (c :: d :: cs) = false := by
  cases h : p c <;> simp [test, run, h]

theorem test_seq_cls_nil (p : Char → Bool) (r : Re) : test (seq (cls p) r) [] = false := rfl

theorem test_seq_cls_cons (p : Char → Bool) (r : Re) (c : Char) (cs : List Char) :
    test (seq (cls p) r) (c :: cs) = (p c && test r cs) := by
  cases h : p c <;> simp [test, run, h]

theorem test_seq_seq (a b r : Re) (cs : List Char) :
    test (seq (seq a b) r) cs = test (seq a (seq b r)) cs := by
  simp only [test, run, List.flatMap_assoc]

theorem test_seq_alt (a b r : Re) (cs : List Char) :
    test (seq (alt a b) r) cs = (test (seq a r) cs || test (seq b r) cs) := by
  simp only [test, run, List.flatMap_append, List.any_append]

theorem test_seq_opt (a r : Re) (cs : List Char) :
    test (seq (opt a) r) cs = (test (seq a r) cs || test r cs) := by
  simp only [test, run, List.flatMap_append, List.any_append, List.flatMap_cons,
    List.flatMap_nil, List.append_nil]

end Re

theorem timeRegex_test_eq (cs : List Char) :
    timeRegex.test cs = (isStrictHHMM cs || isShortHMM cs) := by
  rcases cs with _ | ⟨a, _ | ⟨b, _ | ⟨c, _ | ⟨d, _ | ⟨e, _ | ⟨f, r⟩⟩⟩⟩⟩⟩ <;>
    simp only [timeRegex, Re.range, Re.chr, Re.test_seq_seq, Re.test_seq_alt, Re.test_seq_opt,
      Re.test_seq_cls_cons, Re.test_seq_cls_nil, Re.test_cls_nil, Re.test_cls_one, Re.test_cls_more,
      isStrictHHMM, isShortHMM, Bool.and_false, Bool.or_false, Bool.false_and]
  · rw [Bool.eq_iff_iff]
    simp [isMinute, isDigitChar, digitValue, char_eq_iff_toNat]
    omega
  · rw [Bool.eq_iff_iff]
    simp [isMinute, isDigitChar, digitValue, char_eq_iff_toNat]
    omega


theorem postcodeSplits_bounds (t : Nat × Nat × Nat × Nat) (ht : t ∈ postcodeSplits) :
    (1 ≤ t.1 ∧ t.1 ≤ 2) ∧ (1 ≤ t.2.1 ∧ t.2.1 ≤ 2) ∧ t.2.2.1 ≤ 1 ∧ t.2.2.2 ≤ 1 := by
  revert t
  decide

theorem parts_of_shape (cs : List Char) (h : ukPostcodeShape cs = true) : PostcodeParts cs := by
  simp only [ukPostcodeShape, List.any_eq_true] at h
  obtain ⟨t, ht, h⟩ := h
  obtain ⟨⟨a1, a2⟩, ⟨b1, b2⟩, c1, d1⟩ := postcodeSplits_bounds t ht
  simp only [shapeAt, Bool.and_eq_true, beq_iff_eq, List.all_eq_true] at h
  obtain ⟨⟨⟨⟨⟨⟨hlen, hL⟩, hD⟩, hO⟩, hS⟩, hX⟩, hY⟩ := h
  have e1 := (List.take_append_drop t.1 cs).symm
  have e2 := (List.take_append_drop t.2.1 (cs.drop t.1)).symm
  have e3 := (List.take_append_drop t.2.2.1 ((cs.drop t.1).drop t.2.1)).symm
  have e4 := (List.take_append_drop t.2.2.2 (((cs.drop t.1).drop t.2.1).drop t.2.2.1)).symm
  have e5 := (List.take_append_drop 1
    ((((cs.drop t.1).drop t.2.1).drop t.2.2.1).drop t.2.2.2)).symm
  have l1 : ((((cs.drop t.1).drop t.2.1).drop t.2.2.1).drop t.2.2.2).length = 3 := by
    simp only [List.length_drop]; omega
  have lx : (((((cs.drop t.1).drop t.2.1).drop t.2.2.1).drop t.2.2.2).take 1).length = 1 := by
    rw [List.length_take]; omega
  have ly : (((((cs.drop t.1).drop t.2.1).drop t.2.2.1).drop t.2.2.2).drop 1).length = 2 := by
    rw [List.length_drop]; omega
  obtain ⟨x, hx⟩ := List.length_eq_one.mp lx
  obtain ⟨y, z, hyz⟩ := List.length_eq_two.mp ly
  refine ⟨cs.take t.1, (cs.drop t.1).take t.2.1, ((cs.drop t.1).drop t.2.1).take t.2.2.1,
    (((cs.drop t.1).drop t.2.1).drop t.2.2.1).take t.2.2.2, x, y, z, ?_, ?_, ?_, ?_, ?_, ?_, ?_, ?_⟩
  · rw [hx, hyz] at e5
    calc cs = _ := e1
      _ = _ := by rw [e2]
      _ = _ := by rw [e3]
      _ = _ := by rw [e4]
      _ = _ := by rw [e5]; simp
  · refine ⟨?_, ?_, hL⟩ <;> rw [List.length_take] <;> omega
  · refine ⟨?_, ?_, hD⟩ <;> simp only [List.length_take, List.length_drop] <;> omega
  · refine ⟨?_, hO⟩; simp only [List.length_take, List.length_drop]; omega
  · refine ⟨?_, ?_⟩
    · simp only [List.length_take, List.length_drop]; omega
    · intro c hc; simpa using hS c hc
  · apply hX; rw [hx]; simp
  · apply hY; rw [hyz]; simp
  · apply hY; rw [hyz]; simp

theorem toNat_ofNat_small (n : Nat) (h : n < 55296) : (Char.ofNat n).toNat = n := by
  unfold Char.ofNat
  rw [dif_pos (Or.inl h)]
  rfl

theorem toNat_toUpper (c : Char) :
    c.toUpper.toNat = if 97 ≤ c.toNat ∧ c.toNat ≤ 122 then c.toNat - 32 else c.toNat := by
  unfold Char.toUpper
  simp only [ge_iff_le]
  split
  · rw [toNat_ofNat_small]; omega
  · rfl

theorem isLetterChar_toUpper (c : Char) (h : isLetterChar c = true) :
    isLetterChar c.toUpper = true := by
  simp only [isLetterChar, Bool.or_eq_true, Bool.and_eq_true, decide_eq_true_eq] at h ⊢
  rw [toNat_toUpper]
  split <;> omega

theorem isDigitChar_toUpper (c : Char) (h : isDigitChar c = true) :
    isDigitChar c.toUpper = true := by
  simp only [isDigitChar, Bool.and_eq_true, decide_eq_true_eq] at h ⊢
  rw [toNat_toUpper]
  split <;> omega

theorem parts_map_toUpper (cs : List Char) (h : PostcodeParts cs) :
    PostcodeParts (cs.map Char.toUpper) := by
  obtain ⟨L, D, O, S, x, y, z, rfl, ⟨l1, l2, hL⟩, ⟨d1, d2, hD⟩, ⟨o1, hO⟩, ⟨s1, hS⟩, hx, hy, hz⟩ := h
  refine ⟨L.map Char.toUpper, D.map Char.toUpper, O.map Char.toUpper, S.map Char.toUpper,
    x.toUpper, y.toUpper, z.toUpper, by simp, ⟨by simpa, by simpa, ?_⟩, ⟨by simpa, by simpa, ?_⟩,
    ⟨by simpa, ?_⟩, ⟨by simpa, ?_⟩, isDigitChar_toUpper x hx, isLetterChar_toUpper y hy,
    isLetterChar_toUpper z hz⟩
  · intro c hc
    obtain ⟨c', hc', rfl⟩ := List.mem_map.mp hc
    exact isLetterChar_toUpper c' (hL c' hc')
  · intro c hc
    obtain ⟨c', hc', rfl⟩ := List.mem_map.mp hc
    exact isDigitChar_toUpper c' (hD c' hc')
  · intro c hc
    obtain ⟨c', hc', rfl⟩ := List.mem_map.mp hc
    exact isLetterChar_toUpper c' (hO c' hc')
  · intro c hc
    obtain ⟨c', hc', rfl⟩ := List.mem_map.mp hc
    rw [hS c' hc']; rfl

namespace Re

theorem mem_run_cls_cons (p : Char → Bool) (c : Char) (rest : List Char) (h : p c = true) :
    rest ∈ run (cls p) (c :: rest) := by
  simp [run, h]

theorem mem_run_seq_of (a b : Re) (cs mid rest : List Char) (h1 : mid ∈ run a cs)
    (h2 : rest ∈ run b mid) : rest ∈ run (seq a b) cs := by
  simp only [run, List.mem_flatMap]
  exact ⟨mid, h1, h2⟩

theorem mem_run_opt_cls (p : Char → Bool) (l rest : List Char) (hl : l.length ≤ 1)
    (hp : ∀ c ∈ l, p c = true) : rest ∈ run (opt (cls p)) (l ++ rest) := by
  rcases l with _ | ⟨c, _ | ⟨d, l⟩⟩
  · simp [run]
  · have := mem_run_cls_cons p c rest (hp c (by simp))
    simp only [run, List.mem_append] at this ⊢
    exact Or.inl this
  · simp at hl

theorem mem_run_oneOrTwo_cls (p : Char → Bool) (l rest : List Char) (h1 : 1 ≤ l.length)
    (h2 : l.length ≤ 2) (hp : ∀ c ∈ l, p c = true) :
    rest ∈ run (oneOrTwo (cls p)) (l ++ rest) := by
  rcases l with _ | ⟨c, l⟩
  · simp at h1
  · refine mem_run_seq_of _ _ _ (l ++ rest) _ (mem_run_cls_cons p c _ (hp c (by simp))) ?_
    apply mem_run_opt_cls
    · simpa using h2
    · intro d hd; exact hp d (by simp [hd])

theorem test_of_mem (r : Re) (cs : List Char) (h : [] ∈ run r cs) : test r cs = true := by
  simp only [test, List.any_eq_true]
  exact ⟨[], h, rfl⟩

end Re

theorem postcodeRegex_of_parts (cs : List Char) (h : PostcodeParts cs) :
    postcodeRegex.test cs = true := by
  obtain ⟨L, D, O, S, x, y, z, rfl, ⟨l1, l2, hL⟩, ⟨d1, d2, hD⟩, ⟨o1, hO⟩, ⟨s1, hS⟩, hx, hy, hz⟩ := h
  apply Re.test_of_mem
  refine Re.mem_run_seq_of _ _ _ _ _ (Re.mem_run_oneOrTwo_cls _ L _ l1 l2 hL) ?_
  refine Re.mem_run_seq_of _ _ _ _ _ (Re.mem_run_oneOrTwo_cls _ D _ d1 d2 hD) ?_
  refine Re.mem_run_seq_of _ _ _ _ _ (Re.mem_run_opt_cls _ O _ o1 hO) ?_
  refine Re.mem_run_seq_of _ _ _ _ _ (Re.mem_run_opt_cls _ S _ s1 ?_) ?_
  · intro c hc; rw [hS c hc]; rfl
  refine Re.mem_run_seq_of _ _ _ _ _ (Re.mem_run_cls_cons _ x _ hx) ?_
  refine Re.mem_run_seq_of _ _ _ _ _ (Re.mem_run_cls_cons _ y _ hy) ?_
  exact Re.mem_run_cls_cons _ z _ hz

theorem jsTrim_head (cs : List Char) (c : Char) (h : (jsTrim cs).head? = some c) :
    isJsWhitespace c = false := by
  have hp : jsTrim cs <+: cs.dropWhile isJsWhitespace := List.rdropWhile_prefix _ _
  obtain ⟨u, hu⟩ := hp
  have hd := List.head?_dropWhile_not isJsWhitespace cs
  rw [← hu] at hd
  cases hj : jsTrim cs with
  | nil => rw [hj] at h; simp at h
  | cons a t =>
    rw [hj] at h hd
    simp only [List.head?_cons, Option.some.injEq] at h
    subst h
    simpa using hd

theorem jsTrim_getLast (cs : List Char) (c : Char) (h : (jsTrim cs).getLast? = some c) :
    isJsWhitespace c = false := by
  have hne : jsTrim cs ≠ [] := by
    intro hn; rw [hn] at h; simp at h
  have := List.rdropWhile_last_not isJsWhitespace (cs.dropWhile isJsWhitespace) hne
  rw [List.getLast?_eq_getLast _ hne] at h
  simp only [Option.some.injEq] at h
  rw [← h]
  simpa [jsTrim] using this

theorem jsTrim_contiguous (cs : List Char) : jsTrim cs <:+: cs :=
  ( List.rdropWhile_prefix _ _).isInfix.trans (List.dropWhile_suffix _).isInfix

theorem jsTrim_eq_self (c : Char) (l : List Char) (hc : isJsWhitespace c = false)
    (hl : ∀ h : c :: l ≠ [], isJsWhitespace ((c :: l).getLast h) = false) :
    jsTrim (c :: l) = c :: l := by
  have h1 : (c :: l).dropWhile isJsWhitespace = c :: l := by
    simp [List.dropWhile, hc]
  simp only [jsTrim, h1]
  rw [List.rdropWhile_eq_self_iff]
  intro h
  simp [hl h]

theorem not_ws_of_letter (c : Char) (h : isLetterChar c = true) : isJsWhitespace c = false := by
  simp only [isLetterChar, Bool.or_eq_true, Bool.and_eq_true, decide_eq_true_eq] at h
  simp only [isJsWhitespace, Bool.or_eq_false_iff, Bool.and_eq_false_iff, beq_eq_false_iff_ne,
    decide_eq_false_iff_not, ne_eq]
  omega

theorem parts_trim (cs : List Char) (h : PostcodeParts cs) : jsTrim cs = cs ∧ cs ≠ [] := by
  obtain ⟨L, D, O, S, x, y, z, rfl, ⟨l1, l2, hL⟩, ⟨d1, d2, hD⟩, ⟨o1, hO⟩, ⟨s1, hS⟩, hx, hy, hz⟩ := h
  rcases L with _ | ⟨a, L⟩
  · simp at l1
  · refine ⟨?_, by simp⟩
    rw [List.cons_append]
    apply jsTrim_eq_self
    · exact not_ws_of_letter a (hL a (by simp))
    · intro h
      have : (a :: (L ++ (D ++ (O ++ (S ++ [x, y, z]))))).getLast h = z := by
        have e : a :: (L ++ (D ++ (O ++ (S ++ [x, y, z])))) =
            (a :: (L ++ (D ++ (O ++ (S ++ [x, y]))))) ++ [z] := by simp
        simp only [e, List.getLast_append_singleton]
      rw [this]
      exact not_ws_of_letter z hz

theorem parts_chars (cs : List Char) (h : PostcodeParts cs) :
    ∀ c ∈ cs, isLetterChar c = true ∨ isDigitChar c = true ∨ c = ' ' := by
  obtain ⟨L, D, O, S, x, y, z, rfl, ⟨l1, l2, hL⟩, ⟨d1, d2, hD⟩, ⟨o1, hO⟩, ⟨s1, hS⟩, hx, hy, hz⟩ := h
  intro c hc
  simp only [List.mem_append, List.mem_cons, List.mem_singleton, List.not_mem_nil,
    or_false] at hc
  rcases hc with hc | hc | hc | hc | rfl | rfl | rfl
  · exact Or.inl (hL c hc)
  · exact Or.inr (Or.inl (hD c hc))
  · exact Or.inl (hO c hc)
  · exact Or.inr (Or.inr (hS c hc))
  · exact Or.inr (Or.inl hx)
  · exact Or.inl hy
  · exact Or.inl hz

theorem upper_filter (P : Platform) (cs : List Char)
    (h : ∀ c ∈ cs, isLetterChar c = true ∨ isDigitChar c = true ∨ c = ' ') :
    (toUpperCase P cs).filter keptByPostcode = cs.map Char.toUpper := by
  induction cs with
  | nil => rfl
  | cons c cs ih =>
    have hc := h c (by simp)
    have hlt : c.toNat < 128 := by
      rcases hc with hc | hc | hc
      · simp only [isLetterChar, Bool.or_eq_true, Bool.and_eq_true, decide_eq_true_eq] at hc
        omega
      · simp only [isDigitChar, Bool.and_eq_true, decide_eq_true_eq] at hc
        omega
      · rw [hc]; decide
    have hk : keptByPostcode c.toUpper = true := by
      rcases hc with hc | hc | hc
      · simp only [isLetterChar, Bool.or_eq_true, Bool.and_eq_true, decide_eq_true_eq] at hc
        simp only [keptByPostcode, Bool.or_eq_true, Bool.and_eq_true, decide_eq_true_eq]
        rw [toNat_toUpper]
        split <;> omega
      · simp only [isDigitChar, Bool.and_eq_true, decide_eq_true_eq] at hc
        simp only [keptByPostcode, Bool.or_eq_true, Bool.and_eq_true, decide_eq_true_eq]
        rw [toNat_toUpper]
        split <;> omega
      · rw [hc]; decide
    have ih' := ih (fun d hd => h d (by simp [hd]))
    simp only [toUpperCase, List.flatMap_cons, hlt, if_true, List.filter_append,
      List.map_cons] at ih' ⊢
    rw [ih']
    simp [List.filter, hk]

theorem sanitizePostcode_data (P : Platform) (s : String) (hs : s.data ≠ []) :
    (sanitizePostcode P (some s)).data =
      jsTrim ((toUpperCase P s.data).filter keptByPostcode) := by
  simp only [sanitizePostcode, hs, if_false]

theorem validate_sanitize_of_parts (P : Platform) (s : String) (h : PostcodeParts s.data) :
    validatePostcode (some (sanitizePostcode P (some s))) = true := by
  have hne : s.data ≠ [] := (parts_trim _ h).2
  have hu := parts_map_toUpper _ h
  have hd : (sanitizePostcode P (some s)).data = s.data.map Char.toUpper := by
    rw [sanitizePostcode_data P s hne, upper_filter P s.data (parts_chars _ h)]
    exact (parts_trim _ hu).1
  simp only [validatePostcode, hd]
  rw [if_neg (parts_trim _ hu).2, (parts_trim _ hu).1]
  exact postcodeRegex_of_parts _ hu


theorem sanitizeText_data (input : Option String) :
    (sanitizeText input).data =
      jsTrim ((input.getD "").data.filter fun c => !(c == '<' || c == '>')) := by
  cases input with
  | none => rfl
  | some s =>
    simp only [sanitizeText, Option.getD_some]
    split
    · next h => rw [h]; rfl
    · rfl

theorem sanitizePostcode_data_all (P : Platform) (s : String) :
    (sanitizePostcode P (some s)).data =
      jsTrim ((toUpperCase P s.data).filter keptByPostcode) := by
  by_cases hs : s.data = []
  · simp only [sanitizePostcode, hs, if_true]
    rfl
  · exact sanitizePostcode_data P s hs

theorem sanitizeField_text (P : Platform) (k : String) (v : Option String)
    (h1 : k ≠ "date") (h2 : k ≠ "time") (h3 : k ≠ "postcode") (h4 : k ≠ "notes")
    (h5 : includes k.data "address".data = false) :
    sanitizeField P k v = some (sanitizeText v) := by
  simp [sanitizeField, h1, h2, h3, h4, h5]

/-- Where the schema requires `time`, a submitted time that the pattern
rejects makes the result invalid (through the required-field message). -/
theorem invalid_time_rejected_when_required (P : Platform) (d : Obj) (schema : Schema)
    (f : FieldSpec) (hf : f ∈ schema.fields) (hn : f.name = "time") (hr : f.required = true)
    (s : String) (hl : d.lookup "time" = some (some s))
    (hbad : timeRegex.test s.data = false) :
    (validateAndSanitize P d schema).isValid = false := by
  apply isValid_false_of_required_empty P d schema f hf hr
  rw [hn, get_sanitizeFormData, hl]
  have hk : sanitizeField P "time" (some s) = sanitizeTime (some s) := by
    simp [sanitizeField]
  show truthy (sanitizeField P "time" (some s)) = false
  rw [hk]
  by_cases h : s.data = []
  · simp [sanitizeTime, h, truthy]
  · simp [sanitizeTime, h, hbad, truthy]

/-! ## Lemmas on sorting, objects and the table -/

section Sorting
variable {α : Type}

theorem stableInsert_perm (le : α → α → Bool) (x : α) (l : List α) :
    (stableInsert le x l).Perm (x :: l) := by
  induction l with
  | nil => exact List.Perm.refl _
  | cons y ys ih =>
    simp only [stableInsert]
    split
    · exact List.Perm.refl _
    · exact (List.Perm.cons y ih).trans (List.Perm.swap x y ys)

theorem stableSort_perm (le : α → α → Bool) (l : List α) : (stableSort le l).Perm l := by
  induction l with
  | nil => exact List.Perm.refl _
  | cons x xs ih =>
    simp only [stableSort]
    exact (stableInsert_perm le x _).trans (List.Perm.cons x ih)

theorem mem_stableSort (le : α → α → Bool) (l : List α) (x : α) :
    x ∈ stableSort le l ↔ x ∈ l :=
  (stableSort_perm le l).mem_iff

theorem stableInsert_congr (le le2 : α → α → Bool) (x : α) (l : List α)
    (h : ∀ b ∈ l, le x b = le2 x b) : stableInsert le x l = stableInsert le2 x l := by
  induction l with
  | nil => rfl
  | cons y ys ih =>
    simp only [stableInsert]
    rw [h y (by simp), ih (fun b hb => h b (by simp [hb]))]

theorem stableSort_congr (le le2 : α → α → Bool) (l : List α)
    (h : ∀ a ∈ l, ∀ b ∈ l, le a b = le2 a b) : stableSort le l = stableSort le2 l := by
  induction l with
  | nil => rfl
  | cons x xs ih =>
    simp only [stableSort]
    rw [ih (fun a ha b hb => h a (by simp [ha]) b (by simp [hb]))]
    apply stableInsert_congr
    intro b hb
    exact h x (by simp) b (by simp [(mem_stableSort le2 xs b).mp hb])

variable (key : α → Int)

theorem stableInsert_sorted (x : α) (l : List α)
    (hl : l.Pairwise fun a b => key a ≤ key b) :
    (stableInsert (fun a b => decide (key a ≤ key b)) x l).Pairwise
      fun a b => key a ≤ key b := by
  induction l with
  | nil => simp [stableInsert]
  | cons y ys ih =>
    simp only [stableInsert]
    rw [List.pairwise_cons] at hl
    by_cases hxy : key x ≤ key y
    · simp only [hxy, decide_True, if_true]
      rw [List.pairwise_cons]
      refine ⟨?_, List.pairwise_cons.mpr hl⟩
      intro b hb
      rcases List.mem_cons.mp hb with rfl | hb
      · exact hxy
      · exact le_trans hxy (hl.1 b hb)
    · simp only [hxy, decide_False, Bool.false_eq_true, if_false]
      rw [List.pairwise_cons]
      refine ⟨?_, ih hl.2⟩
      intro b hb
      have := (stableInsert_perm _ x ys).mem_iff.mp hb
      rcases List.mem_cons.mp this with rfl | hb
      · omega
      · exact hl.1 b hb

theorem stableSort_sorted (l : List α) :
    (stableSort (fun a b => decide (key a ≤ key b)) l).Pairwise
      fun a b => key a ≤ key b := by
  induction l with
  | nil => simp [stableSort]
  | cons x xs ih => exact stableInsert_sorted key x _ ih

theorem stableInsert_of_le_all (x : α) (l : List α) (h : ∀ b ∈ l, key x ≤ key b) :
    stableInsert (fun a b => decide (key a ≤ key b)) x l = x :: l := by
  cases l with
  | nil => rfl
  | cons y ys => simp [stableInsert, h y (by simp)]

theorem filter_stableInsert (p : α → Bool) (x : α) (l : List α)
    (hl : l.Pairwise fun a b => key a ≤ key b) :
    (stableInsert (fun a b => decide (key a ≤ key b)) x l).filter p =
      if p x then stableInsert (fun a b => decide (key a ≤ key b)) x (l.filter p)
      else l.filter p := by
  induction l with
  | nil => cases hp : p x <;> simp [stableInsert, hp]
  | cons y ys ih =>
    rw [List.pairwise_cons] at hl
    by_cases hxy : key x ≤ key y
    · have hall : ∀ b ∈ (y :: ys).filter p, key x ≤ key b := by
        intro b hb
        have hb2 := (List.mem_filter.mp hb).1
        rcases List.mem_cons.mp hb2 with rfl | hb3
        · exact hxy
        · exact le_trans hxy (hl.1 b hb3)
      rw [stableInsert_of_le_all key x (y :: ys) (by
        intro b hb
        rcases List.mem_cons.mp hb with rfl | hb3
        · exact hxy
        · exact le_trans hxy (hl.1 b hb3))]
      rw [stableInsert_of_le_all key x _ hall]
      cases hp : p x <;> simp [List.filter_cons, hp]
    · have hins : stableInsert (fun a b => decide (key a ≤ key b)) x (y :: ys) =
          y :: stableInsert (fun a b => decide (key a ≤ key b)) x ys := by
        simp [stableInsert, hxy]
      rw [hins, List.filter_cons, ih hl.2]
      cases hpy : p y
      · simp [List.filter_cons, hpy]
      · cases hpx : p x
        · simp [List.filter_cons, hpy]
        · simp [List.filter_cons, hpy, stableInsert, hxy]

theorem filter_stableSort (p : α → Bool) (l : List α) :
    (stableSort (fun a b => decide (key a ≤ key b)) l).filter p =
      stableSort (fun a b => decide (key a ≤ key b)) (l.filter p) := by
  induction l with
  | nil => rfl
  | cons x xs ih =>
    simp only [stableSort]
    rw [filter_stableInsert key p x _ (stableSort_sorted key xs), ih]
    cases hp : p x <;> simp [List.filter_cons, hp, stableSort]

theorem stableSort_of_sorted (l : List α) (hl : l.Pairwise fun a b => key a ≤ key b) :
    stableSort (fun a b => decide (key a ≤ key b)) l = l := by
  induction l with
  | nil => rfl
  | cons x xs ih =>
    rw [List.pairwise_cons] at hl
    simp only [stableSort]
    rw [ih hl.2]
    exact stableInsert_of_le_all key x xs hl.1

theorem stableSort_stable (l : List α) (t : Int) :
    (stableSort (fun a b => decide (key a ≤ key b)) l).filter (fun a => key a == t) =
      l.filter (fun a => key a == t) := by
  rw [filter_stableSort]
  apply stableSort_of_sorted
  rw [List.pairwise_iff_forall_sublist]
  intro a b hab
  have ha : a ∈ l.filter (fun a => key a == t) := hab.subset (by simp)
  have hb : b ∈ l.filter (fun a => key a == t) := hab.subset (by simp)
  have ha2 := (List.mem_filter.mp ha).2
  have hb2 := (List.mem_filter.mp hb).2
  simp only [beq_iff_eq] at ha2 hb2
  omega

end Sorting

theorem compare_le_iff (parse : String → Option Int) (a b : EventRecord)
    (ha : dateOf parse a ≠ none) (hb : dateOf parse b ≠ none) :
    decide (sortCompare (compareByDate parse a b) ≤ 0) =
      decide (timestampOf parse a ≤ timestampOf parse b) := by
  cases ha2 : dateOf parse a with
  | none => exact absurd ha2 ha
  | some x =>
    cases hb2 : dateOf parse b with
    | none => exact absurd hb2 hb
    | some y =>
      simp only [compareByDate, timestampOf, ha2, hb2, sortCompare, Option.getD_some]
      congr 1
      apply propext
      omega

theorem jsSort_eq_keySort (parse : String → Option Int) (l : List EventRecord)
    (h : ∀ r ∈ l, dateOf parse r ≠ none) :
    jsSort (compareByDate parse) l =
      stableSort (fun a b => decide (timestampOf parse a ≤ timestampOf parse b)) l := by
  unfold jsSort
  apply stableSort_congr
  intro a ha b hb
  exact compare_le_iff parse a b (h a ha) (h b hb)

theorem lookup_append_of_none (o : Obj) (k k2 : String) (v : Option String)
    (h : o.lookup k = none) :
    (o ++ [(k, v)]).lookup k2 = if k2 = k then some v else o.lookup k2 := by
  induction o with
  | nil =>
    by_cases hk : k2 = k
    · subst hk; simp [List.lookup]
    · have : (k2 == k) = false := by simp [hk]
      simp [List.lookup, this, hk]
  | cons e es ih =>
    obtain ⟨ek, ev⟩ := e
    simp only [List.lookup] at h
    by_cases hke : (k == ek) = true
    · simp [hke] at h
    · simp only [Bool.not_eq_true] at hke
      simp only [hke] at h
      have hne : k ≠ ek := by simpa using hke
      simp only [List.cons_append, List.lookup]
      by_cases hk2 : (k2 == ek) = true
      · have : k2 = ek := by simpa using hk2
        have hne2 : k2 ≠ k := by rw [this]; exact fun h => hne h.symm
        simp [hk2, hne2]
      · simp only [Bool.not_eq_true] at hk2
        simp only [hk2]
        exact ih h

theorem beq_comm_string (a b : String) : (a == b) = (b == a) := by
  by_cases h : a = b
  · subst h; rfl
  · have h1 : (a == b) = false := by simp [h]
    have h2 : (b == a) = false := beq_eq_false_iff_ne.mpr (fun hh => h hh.symm)
    rw [h1, h2]

theorem any_key_false_iff (o : Obj) (k : String) :
    o.any (fun e => e.1 == k) = false ↔ o.lookup k = none := by
  induction o with
  | nil => simp [List.lookup]
  | cons e es ih =>
    obtain ⟨ek, ev⟩ := e
    simp only [List.any_cons, Bool.or_eq_false_iff, List.lookup]
    rw [beq_comm_string ek k]
    cases h : (k == ek)
    · simp [ih]
    · simp

theorem lookup_map_replace (o : Obj) (k k2 : String) (v : Option String) :
    (o.map (fun e => if e.1 == k then (k, v) else e)).lookup k2 =
      if k2 = k then (if o.lookup k = none then none else some v) else o.lookup k2 := by
  induction o with
  | nil => simp [List.lookup]
  | cons e es ih =>
    obtain ⟨ek, ev⟩ := e
    simp only [List.map_cons]
    dsimp only
    by_cases hek : ek = k
    · subst hek
      simp only [beq_self_eq_true, if_true]
      by_cases hk2 : k2 = ek
      · subst hk2; simp [List.lookup]
      · have h2 : (k2 == ek) = false := by simp [hk2]
        simp only [List.lookup, h2, hk2, if_false]
        rw [ih]; simp [hk2]
    · have h1 : (ek == k) = false := by simp [hek]
      simp only [h1, Bool.false_eq_true, if_false]
      have hke : (k == ek) = false := by rw [beq_comm_string]; exact h1
      cases hk2 : (k2 == ek)
      · simp only [List.lookup, hk2, hke]
        exact ih
      · have hk2e : k2 = ek := by simpa using hk2
        have hne : k2 ≠ k := by rw [hk2e]; exact hek
        simp only [List.lookup, hk2, hne, if_false]

theorem set_of_lookup_none (o : Obj) (k : String) (v : Option String)
    (h : o.lookup k = none) : o.set k v = o ++ [(k, v)] := by
  have := (any_key_false_iff o k).mpr h
  simp [Obj.set, this]

theorem lookup_set (o : Obj) (k k2 : String) (v : Option String) :
    (o.set k v).lookup k2 = if k2 = k then some v else o.lookup k2 := by
  by_cases h : o.lookup k = none
  · rw [set_of_lookup_none o k v h]
    exact lookup_append_of_none o k k2 v h
  · have hany : o.any (fun e => e.1 == k) = true := by
      by_contra hc
      simp only [Bool.not_eq_true] at hc
      exact h ((any_key_false_iff o k).mp hc)
    simp only [Obj.set, hany, if_true]
    rw [lookup_map_replace]
    simp [h]

theorem keys_set (o : Obj) (k : String) (v : Option String) :
    (o.set k v).map Prod.fst =
      if o.lookup k = none then o.map Prod.fst ++ [k] else o.map Prod.fst := by
  by_cases h : o.lookup k = none
  · rw [set_of_lookup_none o k v h]; simp [h]
  · have hany : o.any (fun e => e.1 == k) = true := by
      by_contra hc
      simp only [Bool.not_eq_true] at hc
      exact h ((any_key_false_iff o k).mp hc)
    simp only [Obj.set, hany, if_true, h, if_false, List.map_map]
    apply List.map_congr_left
    intro e _
    by_cases he : (e.1 == k) = true
    · simp only [Function.comp, he, if_true]; exact (beq_iff_eq.mp he).symm
    · simp only [Bool.not_eq_true] at he
      simp only [Function.comp, he, Bool.false_eq_true, if_false]

theorem lookup_none_iff_not_mem_keys (o : Obj) (k : String) :
    o.lookup k = none ↔ k ∉ o.map Prod.fst := by
  induction o with
  | nil => simp [List.lookup]
  | cons e es ih =>
    obtain ⟨ek, ev⟩ := e
    simp only [List.lookup, List.map_cons, List.mem_cons, not_or]
    by_cases h : (k == ek) = true
    · have : k = ek := by simpa using h
      simp [h, this]
    · simp only [Bool.not_eq_true] at h
      have hne : k ≠ ek := by simpa using h
      simp [h, hne, ih]

theorem nodup_keys_set (o : Obj) (k : String) (v : Option String)
    (h : (o.map Prod.fst).Nodup) : ((o.set k v).map Prod.fst).Nodup := by
  rw [keys_set]
  split
  · next hn =>
    rw [List.nodup_append]
    refine ⟨h, by simp, ?_⟩
    intro a ha hb
    simp only [List.mem_singleton] at hb
    subst hb
    exact (lookup_none_iff_not_mem_keys o a).mp hn ha
  · exact h

theorem lookup_applyChanges (a c : Obj) (k : String) (hnd : (c.map Prod.fst).Nodup) :
    (applyChanges a c).lookup k =
      match c.lookup k with
      | some v => some v
      | none => a.lookup k := by
  induction c generalizing a with
  | nil => rfl
  | cons e es ih =>
    obtain ⟨ek, ev⟩ := e
    simp only [List.map_cons, List.nodup_cons] at hnd
    have hstep : applyChanges a ((ek, ev) :: es) = applyChanges (a.set ek ev) es := rfl
    rw [hstep, ih (a.set ek ev) hnd.2, lookup_set]
    by_cases hk : k = ek
    · subst hk
      have : es.lookup k = none := (lookup_none_iff_not_mem_keys es k).mpr hnd.1
      simp [this, List.lookup]
    · have hb : (k == ek) = false := by simp [hk]
      simp only [List.lookup, hb, hk, if_false]


theorem WF_add (st : Store) (obj : Obj) (h : st.WF) :
    Store.WF { rows := st.rows ++ [{ id := st.nextKey, attrs := obj }],
               nextKey := st.nextKey + 1 } := by
  obtain ⟨h1, h2⟩ := h
  constructor
  · rw [List.pairwise_append]
    refine ⟨h1, by simp, ?_⟩
    intro a ha b hb
    simp only [List.mem_singleton] at hb
    subst hb
    exact h2 a ha
  · intro r hr
    rcases List.mem_append.mp hr with hr | hr
    · exact Nat.lt_succ_of_lt (h2 r hr)
    · simp only [List.mem_singleton] at hr
      subst hr
      exact Nat.lt_succ_self _

theorem addEvent_eq (now : String) (st : Store) (eventData : Obj)
    (h1 : eventData.lookup "id" = none) (h2 : eventData.lookup "createdAt" = none) :
    dbOperations.addEvent now none st eventData =
      some ({ rows := st.rows ++
                [{ id := st.nextKey, attrs := eventData ++ [("createdAt", some now)] }],
              nextKey := st.nextKey + 1 },
            { success := true, id := some st.nextKey, error := none }) := by
  have hset : eventData.set "createdAt" (some now) = eventData ++ [("createdAt", some now)] :=
    set_of_lookup_none _ _ _ h2
  have hid : (eventData ++ [("createdAt", some now)]).lookup "id" = none := by
    rw [lookup_append_of_none _ _ _ _ h2]
    simp [h1]
  simp only [dbOperations.addEvent, hset, Table.add, hid]

theorem plainChanges_iff (o : Obj) :
    plainChanges o = true ↔
      ∀ k ∈ o.map Prod.fst, (k != "id" && !k.data.contains '.') = true := by
  simp only [plainChanges, List.all_eq_true, List.mem_map, forall_exists_index, and_imp]
  constructor
  · intro h k e he hk
    rw [← hk]; exact h e he
  · intro h e he
    exact h e.1 e he rfl

theorem plainChanges_set_updatedAt (o : Obj) (v : Option String) (h : plainChanges o = true) :
    plainChanges (o.set "updatedAt" v) = true := by
  rw [plainChanges_iff] at h ⊢
  intro k hk
  rw [keys_set] at hk
  split at hk
  · rcases List.mem_append.mp hk with hk | hk
    · exact h k hk
    · simp only [List.mem_singleton] at hk
      subst hk
      decide
  · exact h k hk

theorem updateEvent_eq (now : String) (st : Store) (id : Nat) (updates : Obj)
    (hplain : plainChanges updates = true) :
    dbOperations.updateEvent now none st id updates =
      some (updatedStore now st id updates,
        { success := true, id := none, error := none }) := by
  simp only [dbOperations.updateEvent, Table.update,
    plainChanges_set_updatedAt updates (some now) hplain, if_true]
  rfl

theorem store_eta (st : Store) : ({ st with rows := st.rows } : Store) = st := by
  cases st; rfl

theorem updatedStore_absent (now : String) (st : Store) (id : Nat) (updates : Obj)
    (h : ∀ r ∈ st.rows, r.id ≠ id) : updatedStore now st id updates = st := by
  have : (st.rows.map fun r => if r.id = id then updatedRecord now r updates else r) =
      st.rows := by
    conv_rhs => rw [← List.map_id st.rows]
    apply List.map_congr_left
    intro r hr
    simp [h r hr]
  simp only [updatedStore, this]

theorem delete_absent (st : Store) (id : Nat) (h : ∀ r ∈ st.rows, r.id ≠ id) :
    Table.delete st id = st := by
  have : (st.rows.filter fun r => r.id != id) = st.rows := by
    rw [List.filter_eq_self]
    intro r hr
    simpa using h r hr
  simp only [Table.delete, this]

theorem string_data_nil (t : String) (h : t.data = []) : t = "" := by
  cases t; simp_all

theorem handleFormSubmit_edit {σ : Type} (P : Platform) (exec : σ → DbCall → σ × Bool)
    (app : App σ) (data : Obj) (t : String) (schema : Schema) (n : Nat)
    (ht : app.currentEventType = some t) (hs : EVENT_SCHEMAS t = some schema)
    (hv : (validateAndSanitize P data schema).isValid = true)
    (he : app.editingEventId = some (n + 1)) :
    (handleFormSubmit P exec app data).calls =
      app.calls ++ [DbCall.updateEvent (n + 1)
        ((validateAndSanitize P data schema).data.set "type" (some t))] := by
  have hne : t.data ≠ [] := by
    intro h
    rw [string_data_nil t h] at hs
    simp [EVENT_SCHEMAS] at hs
  unfold handleFormSubmit
  rw [ht]
  simp only [hne, if_false, hs, hv, he]
  simp only [Bool.not_true, Bool.false_eq_true, if_false, App.issue]
  split <;> rfl

theorem handleSaveEdit_valid {σ : Type} (P : Platform) (exec : σ → DbCall → σ × Bool)
    (app : App σ) (id : Nat) (data : Obj) (t : String) (schema : Schema)
    (hs : EVENT_SCHEMAS t = some schema)
    (hv : (validateAndSanitize P data schema).isValid = true) :
    (handleSaveEdit P exec app id (some (t, data))).calls =
      app.calls ++ [DbCall.updateEvent id (validateAndSanitize P data schema).data] := by
  unfold handleSaveEdit
  simp only [hs, hv]
  simp only [Bool.not_true, Bool.false_eq_true, if_false, App.issue]
  split <;> rfl

theorem jsTrim_idem (l : List Char) : jsTrim (jsTrim l) = jsTrim l := by
  cases h : jsTrim l with
  | nil => rfl
  | cons c t =>
    apply jsTrim_eq_self
    · exact jsTrim_head l c (by rw [h]; rfl)
    · intro hne
      apply jsTrim_getLast l
      rw [h]
      exact List.getLast?_eq_getLast _ hne

theorem sanitizeText_idem (v : Option String) :
    sanitizeText (some (sanitizeText v)) = sanitizeText v := by
  apply String.ext
  rw [sanitizeText_data (some (sanitizeText v))]
  simp only [Option.getD_some]
  have hall : (sanitizeText v).data.filter (fun c => !(c == '<' || c == '>')) =
      (sanitizeText v).data := by
    rw [List.filter_eq_self]
    intro c hc
    rw [sanitizeText_data v] at hc
    exact (List.mem_filter.mp ((jsTrim_contiguous _).subset hc)).2
  rw [hall, sanitizeText_data v]
  exact jsTrim_idem _

theorem sanitizeDate_idem (P : Platform) (v : Option String) :
    sanitizeDate P (sanitizeDate P v) = sanitizeDate P v := by
  cases v with
  | none => rfl
  | some s =>
    by_cases h1 : s.data = []
    · simp [sanitizeDate, h1]
    · by_cases h2 : P.dateIsValid s = true
      · simp [sanitizeDate, h1, h2]
      · simp [sanitizeDate, h1, h2]

theorem sanitizeTime_idem (v : Option String) :
    sanitizeTime (sanitizeTime v) = sanitizeTime v := by
  cases v with
  | none => rfl
  | some s =>
    by_cases h1 : s.data = []
    · simp [sanitizeTime, h1]
    · by_cases h2 : timeRegex.test s.data = true
      · simp [sanitizeTime, h1, h2]
      · simp [sanitizeTime, h1, h2]

theorem toUpper_of_not_lower (c : Char) (h : ¬ (97 ≤ c.toNat ∧ c.toNat ≤ 122)) :
    c.toUpper = c := by
  unfold Char.toUpper
  simp only [ge_iff_le]
  rw [if_neg h]

theorem toUpperCase_kept (P : Platform) (l : List Char)
    (hP : ∀ c, isJsWhitespace c = true → 128 ≤ c.toNat → P.upperNonAscii c = [c])
    (h : ∀ c ∈ l, keptByPostcode c = true) : toUpperCase P l = l := by
  induction l with
  | nil => rfl
  | cons c cs ih =>
    have hc := h c (by simp)
    have ih2 := ih (fun d hd => h d (by simp [hd]))
    simp only [toUpperCase, List.flatMap_cons] at ih2 ⊢
    rw [ih2]
    simp only [keptByPostcode, Bool.or_eq_true, Bool.and_eq_true, decide_eq_true_eq] at hc
    by_cases hlt : c.toNat < 128
    · have hnl : ¬ (97 ≤ c.toNat ∧ c.toNat ≤ 122) := by
        rcases hc with (hc | hc) | hc
        · omega
        · omega
        · simp only [isJsWhitespace, Bool.or_eq_true, Bool.and_eq_true, beq_iff_eq,
            decide_eq_true_eq] at hc
          omega
      simp [hlt, toUpper_of_not_lower c hnl]
    · have hw : isJsWhitespace c = true := by
        rcases hc with (hc | hc) | hc
        · omega
        · omega
        · exact hc
      simp [hlt, hP c hw (by omega)]

theorem sanitizePostcode_idem (P : Platform)
    (hP : ∀ c, isJsWhitespace c = true → 128 ≤ c.toNat → P.upperNonAscii c = [c])
    (v : Option String) :
    sanitizePostcode P (some (sanitizePostcode P v)) = sanitizePostcode P v := by
  cases v with
  | none => rfl
  | some s =>
    apply String.ext
    rw [sanitizePostcode_data_all P (sanitizePostcode P (some s))]
    have hk : ∀ c ∈ (sanitizePostcode P (some s)).data, keptByPostcode c = true := by
      intro c hc
      rw [sanitizePostcode_data_all] at hc
      exact (List.mem_filter.mp ((jsTrim_contiguous _).subset hc)).2
    rw [toUpperCase_kept P _ hP hk, List.filter_eq_self.mpr hk, sanitizePostcode_data_all]
    exact jsTrim_idem _

theorem sanitizeField_idem (P : Platform)
    (hP : ∀ c, isJsWhitespace c = true → 128 ≤ c.toNat → P.upperNonAscii c = [c])
    (k : String) (v : Option String) (h1 : k ≠ "notes")
    (h2 : includes k.data "address".data = false) :
    sanitizeField P k (sanitizeField P k v) = sanitizeField P k v := by
  by_cases hd : k = "date"
  · subst hd
    have e : ∀ w, sanitizeField P "date" w = sanitizeDate P w := fun w => by
      simp [sanitizeField]
    rw [e, e]; exact sanitizeDate_idem P v
  · by_cases ht : k = "time"
    · subst ht
      have e : ∀ w, sanitizeField P "time" w = sanitizeTime w := fun w => by
        simp [sanitizeField]
      rw [e, e]; exact sanitizeTime_idem v
    · by_cases hp : k = "postcode"
      · subst hp
        have e : ∀ w, sanitizeField P "postcode" w = some (sanitizePostcode P w) :=
          fun w => by simp [sanitizeField]
        rw [e, e, sanitizePostcode_idem P hP v]
      · rw [sanitizeField_text P k v hd ht hp h1 h2,
          sanitizeField_text P k _ hd ht hp h1 h2, sanitizeText_idem v]

theorem sanitizeFormData_idem (P : Platform)
    (hP : ∀ c, isJsWhitespace c = true → 128 ≤ c.toNat → P.upperNonAscii c = [c])
    (d : Obj)
    (hkeys : ∀ e ∈ d, e.1 ≠ "notes" ∧ includes e.1.data "address".data = false) :
    sanitizeFormData P (sanitizeFormData P d) = sanitizeFormData P d := by
  simp only [sanitizeFormData, List.map_map]
  apply List.map_congr_left
  intro e he
  simp only [Function.comp]
  rw [sanitizeField_idem P hP e.1 e.2 (hkeys e he).1 (hkeys e he).2]

theorem validateAndSanitize_of_data (P : Platform) (d1 d2 : Obj) (schema : Schema)
    (h : sanitizeFormData P d1 = sanitizeFormData P d2) :
    validateAndSanitize P d1 schema = validateAndSanitize P d2 schema := by
  have e1 := validateAndSanitize_errors P d1 schema
  have e2 := validateAndSanitize_errors P d2 schema
  have v1 := validateAndSanitize_isValid P d1 schema
  have v2 := validateAndSanitize_isValid P d2 schema
  rw [h] at e1
  rw [validationResult_eta (validateAndSanitize P d1 schema),
    validationResult_eta (validateAndSanitize P d2 schema), v1, v2, e1, e2,
    validateAndSanitize_data, validateAndSanitize_data, h]

/-! ## Main results -/

/-- C1. The errors of `validateAndSanitize` begin with exactly the messages
`<label> is required` of the required fields whose sanitized value is empty,
one per such field and in schema order; what follows them is drawn from the
three fixed format messages. If some required field is empty the result is
invalid, and a valid result has every required field non-empty. -/
theorem required_field_errors_exact (P : Platform) (formData : Obj) (schema : Schema) :
    (∃ extra,
      (validateAndSanitize P formData schema).errors =
        (schema.fields.filter fun f =>
          f.required && !truthy ((validateAndSanitize P formData schema).data.get f.name)).map
          (fun f => f.label ++ " is required") ++ extra ∧
      extra.Sublist ["Invalid UK postcode format", "Invalid date format",
        "Invalid time format"]) ∧
    ((∃ f ∈ schema.fields, f.required = true ∧
        truthy ((validateAndSanitize P formData schema).data.get f.name) = false) →
      (validateAndSanitize P formData schema).isValid = false) ∧
    ((validateAndSanitize P formData schema).isValid = true →
      ∀ f ∈ schema.fields, f.required = true →
        truthy ((validateAndSanitize P formData schema).data.get f.name) = true) := by
  refine ⟨⟨postcodeErrors (sanitizeFormData P formData), ?_, ?_⟩, ?_, ?_⟩
  · rw [validateAndSanitize_errors]; rfl
  · unfold postcodeErrors
    split
    · exact List.Sublist.cons₂ _ (List.nil_sublist _)
    · exact List.nil_sublist _
  · rintro ⟨f, hf, hr, he⟩
    exact isValid_false_of_required_empty P formData schema f hf hr he
  · intro hv f hf hr
    exact required_of_isValid P formData schema hv f hf hr

/-- C1, at the funeral scenario: four required fields are empty. -/
theorem required_field_errors_exact_witness :
    (∃ extra,
      (validateAndSanitize samplePlatform emptyFuneralForm funeralSchema).errors =
        (funeralSchema.fields.filter fun f =>
          f.required && !truthy
            ((validateAndSanitize samplePlatform emptyFuneralForm funeralSchema).data.get
              f.name)).map
          (fun f => f.label ++ " is required") ++ extra ∧
      extra.Sublist ["Invalid UK postcode format", "Invalid date format",
        "Invalid time format"]) ∧
    (validateAndSanitize samplePlatform emptyFuneralForm funeralSchema).isValid = false :=
  ⟨(required_field_errors_exact samplePlatform emptyFuneralForm funeralSchema).1,
   (required_field_errors_exact samplePlatform emptyFuneralForm funeralSchema).2.1
    ⟨⟨"date", "date", "Date", "Tarih", true⟩, by decide, rfl, by decide⟩⟩

/-- C2. When `validateAndSanitize` reports `isValid = false`, the form-submit
handler and the inline-save handler return the application state as it was:
no `addEvent` or `updateEvent` call is issued and the store is unchanged.
The empty funeral form gives exactly the four required-field errors, in the
order Date, Deceased Name, Place, Time, and is not saved. -/
theorem invalid_form_persists_nothing {σ : Type} (P : Platform)
    (exec : σ → DbCall → σ × Bool) (app : App σ) (id : Nat) (t : String) (schema : Schema)
    (data : Obj) (ht : app.currentEventType = some t) (hs : EVENT_SCHEMAS t = some schema)
    (hv : (validateAndSanitize P data schema).isValid = false) :
    handleFormSubmit P exec app data = app ∧
    handleSaveEdit P exec app id (some (t, data)) = app ∧
    (handleFormSubmit P exec app data).calls = app.calls ∧
    (handleSaveEdit P exec app id (some (t, data))).calls = app.calls ∧
    (validateAndSanitize P emptyFuneralForm funeralSchema).errors =
      ["Date is required", "Deceased Name is required", "Place is required",
        "Time is required"] ∧
    (validateAndSanitize P emptyFuneralForm funeralSchema).isValid = false ∧
    handleFormSubmit P exec { app with currentEventType := some "funeral" } emptyFuneralForm =
      { app with currentEventType := some "funeral" } ∧
    handleSaveEdit P exec app id (some ("funeral", emptyFuneralForm)) = app := by
  have h1 := handleFormSubmit_invalid P exec app t schema data ht hs hv
  have h2 := handleSaveEdit_invalid P exec app id t schema data hs hv
  have hf := funeral_scenario P
  have hfv : (validateAndSanitize P emptyFuneralForm funeralSchema).isValid = false := by
    rw [hf]
  refine ⟨h1, h2, by rw [h1], by rw [h2], by rw [hf], hfv, ?_, ?_⟩
  · exact handleFormSubmit_invalid P exec _ "funeral" funeralSchema emptyFuneralForm rfl rfl hfv
  · exact handleSaveEdit_invalid P exec app id "funeral" funeralSchema emptyFuneralForm rfl hfv

/-- C2, at the funeral scenario over a store that logs its calls: the log
stays empty. -/
theorem invalid_form_persists_nothing_witness :
    (handleFormSubmit samplePlatform logExec
      { store := [], currentEventType := some "funeral", editingEventId := none, calls := [] }
      emptyFuneralForm).store = [] ∧
    (handleSaveEdit samplePlatform logExec
      { store := [], currentEventType := some "funeral", editingEventId := none, calls := [] }
      7 (some ("funeral", emptyFuneralForm))).store = [] := by
  have h := invalid_form_persists_nothing samplePlatform logExec
    { store := [], currentEventType := some "funeral", editingEventId := none, calls := [] }
    7 "funeral" funeralSchema emptyFuneralForm rfl rfl (by decide)
  exact ⟨by rw [h.1], by rw [h.2.1]⟩

/-- C3. With a browser that parses `2025-06-01`, the wedding form of Ada and
Alan validates with no error and unchanged data, and the submit handler (not
in edit mode) passes to `addEvent` those four fields followed by
`type: 'wedding'`. -/
theorem wedding_form_accepted {σ : Type} (P : Platform) (exec : σ → DbCall → σ × Bool)
    (app : App σ) (hd : P.dateIsValid "2025-06-01" = true)
    (ht : app.currentEventType = some "wedding") (he : app.editingEventId = none) :
    validateAndSanitize P adaAlanForm weddingSchema =
      { isValid := true, errors := [],
        data := [("date", some "2025-06-01"), ("bride", some "Ada"), ("groom", some "Alan"),
          ("place", some "Hall")] } ∧
    (handleFormSubmit P exec app adaAlanForm).calls =
      app.calls ++ [DbCall.addEvent
        [("date", some "2025-06-01"), ("bride", some "Ada"), ("groom", some "Alan"),
          ("place", some "Hall"), ("type", some "wedding")]] ∧
    (handleFormSubmit P exec app adaAlanForm).store =
      (exec app.store (DbCall.addEvent
        [("date", some "2025-06-01"), ("bride", some "Ada"), ("groom", some "Alan"),
          ("place", some "Hall"), ("type", some "wedding")])).1 := by
  have hw := wedding_scenario P hd
  refine ⟨hw, ?_, ?_⟩
  · unfold handleFormSubmit
    rw [ht]
    have hs : EVENT_SCHEMAS "wedding" = some weddingSchema := rfl
    simp only [hs, hw, he]
    rfl
  · unfold handleFormSubmit
    rw [ht]
    have hs : EVENT_SCHEMAS "wedding" = some weddingSchema := rfl
    simp only [hs, hw, he]
    rfl

/-- C3, on the sample browser and a store that logs its calls. -/
theorem wedding_form_accepted_witness :
    (handleFormSubmit samplePlatform logExec
      { store := [], currentEventType := some "wedding", editingEventId := none, calls := [] }
      adaAlanForm).store =
      [DbCall.addEvent
        [("date", some "2025-06-01"), ("bride", some "Ada"), ("groom", some "Alan"),
          ("place", some "Hall"), ("type", some "wedding")]] :=
  (wedding_form_accepted samplePlatform logExec
    { store := [], currentEventType := some "wedding", editingEventId := none, calls := [] }
    (by decide) rfl rfl).2.2

/-- What the code keeps of the rule order: the errors of `validateAndSanitize`
are the required-field errors in schema order followed by the postcode error,
and nothing else (the date and the time re-check add no message), `isValid`
says that there is none, a missing required field together with a malformed
postcode gives both messages, the postcode one last, and changing the
submitted postcode changes no other sanitized value. -/
theorem errors_required_then_postcode (P : Platform) (formData : Obj) (schema : Schema) :
    (validateAndSanitize P formData schema).errors =
      requiredErrors (validateAndSanitize P formData schema).data schema ++
        postcodeErrors (validateAndSanitize P formData schema).data ∧
    (validateAndSanitize P formData schema).isValid =
      ((validateAndSanitize P formData schema).errors.length == 0) ∧
    (∀ f ∈ schema.fields, f.required = true →
      truthy ((validateAndSanitize P formData schema).data.get f.name) = false →
      truthy ((validateAndSanitize P formData schema).data.get "postcode") = true →
      validatePostcode ((validateAndSanitize P formData schema).data.get "postcode") = false →
      (f.label ++ " is required") ∈ (validateAndSanitize P formData schema).errors ∧
      (validateAndSanitize P formData schema).errors.getLast? =
        some "Invalid UK postcode format") ∧
    (∀ (v : Option String) (k : String), k ≠ "postcode" →
      (validateAndSanitize P (withPostcode formData v) schema).data.get k =
        (validateAndSanitize P formData schema).data.get k) := by
  refine ⟨validateAndSanitize_errors P formData schema,
    validateAndSanitize_isValid P formData schema, ?_, ?_⟩
  · intro f hf hr he hp hvp
    rw [validateAndSanitize_data] at he hp hvp
    rw [validateAndSanitize_errors]
    have hpc : postcodeErrors (sanitizeFormData P formData) =
        ["Invalid UK postcode format"] := by
      simp [postcodeErrors, hp, hvp]
    rw [hpc]
    refine ⟨?_, by simp⟩
    apply List.mem_append_left
    simp only [requiredErrors, List.mem_map, List.mem_filter]
    exact ⟨f, ⟨hf, by simp [hr, he]⟩, rfl⟩
  · intro v k hk
    rw [validateAndSanitize_data, validateAndSanitize_data]
    exact get_withPostcode P formData v k hk

/-- At a funeral form with no entry but a malformed postcode, the four
required-field messages come first and the postcode message last. -/
theorem errors_required_then_postcode_witness :
    (validateAndSanitize samplePlatform [("postcode", some "12345")] funeralSchema).errors =
      ["Date is required", "Deceased Name is required", "Place is required",
        "Time is required", "Invalid UK postcode format"] ∧
    ("Date" ++ " is required") ∈
      (validateAndSanitize samplePlatform [("postcode", some "12345")] funeralSchema).errors ∧
    (validateAndSanitize samplePlatform [("postcode", some "12345")] funeralSchema).errors.getLast? =
        some "Invalid UK postcode format" :=
  ⟨by decide,
   (errors_required_then_postcode samplePlatform [("postcode", some "12345")]
      funeralSchema).2.2.1
    ⟨"date", "date", "Date", "Tarih", true⟩ (by decide) rfl (by decide) (by decide)
    (by decide)⟩

/-- C4 (the code at a failing input). A wedding form that holds nothing but
the malformed postcode `12345` and the malformed time `24:00` gets the four
required-field messages and then the postcode message, on every platform, but
no `Invalid time format`: the time was already replaced by `null`, which the
time check skips. A funeral form with the same time is told `Time is required`
instead, and a wedding form with an unparseable date `Date is required`: the
message of the date check and that of the time check never appear. -/
theorem malformed_time_gets_no_format_error (P : Platform) :
    sanitizeTime (some "24:00") = none ∧
    (validateAndSanitize P [("postcode", some "12345"), ("time", some "24:00")]
        weddingSchema).errors =
      ["Date is required", "Bride is required", "Groom is required", "Place is required",
        "Invalid UK postcode format"] ∧
    "Invalid time format" ∉
      (validateAndSanitize P [("postcode", some "12345"), ("time", some "24:00")]
        weddingSchema).errors ∧
    (validateAndSanitize P [("postcode", some "12345"), ("time", some "24:00")]
        weddingSchema).data.get "time" = none ∧
    (validateAndSanitize samplePlatform
        [("date", some "2025-06-01"), ("deceased", some "Ada"), ("place", some "Hall"),
          ("time", some "24:00"), ("postcode", some "12345"), ("notes", some "")]
        funeralSchema).errors =
      ["Time is required", "Invalid UK postcode format"] ∧
    (validateAndSanitize samplePlatform
        [("date", some "someday"), ("bride", some "Ada"), ("groom", some "Alan"),
          ("place", some "Hall"), ("postcode", some "12345")] weddingSchema).errors =
      ["Date is required", "Invalid UK postcode format"] := by
  have hs : sanitizeFormData P [("postcode", some "12345"), ("time", some "24:00")] =
      [("postcode", some "12345"), ("time", none)] := rfl
  have he : (validateAndSanitize P [("postcode", some "12345"), ("time", some "24:00")]
      weddingSchema).errors =
      ["Date is required", "Bride is required", "Groom is required", "Place is required",
        "Invalid UK postcode format"] := by
    rw [validateAndSanitize_errors, hs]
    decide
  refine ⟨by decide, he, ?_, ?_, by decide, by decide⟩
  · rw [he]
    decide
  · rw [validateAndSanitize_data, hs]
    decide

/-- C5. For a registered schema, a submitted date that the browser does not
parse makes the result invalid; and a valid result carries as `data.date`
exactly the submitted date string, which the browser parses. -/
theorem date_checked_in_registered_schemas (P : Platform) (t : String) (schema : Schema)
    (formData : Obj) (hs : EVENT_SCHEMAS t = some schema) :
    (∀ s, formData.lookup "date" = some (some s) → P.dateIsValid s = false →
      (validateAndSanitize P formData schema).isValid = false) ∧
    ((validateAndSanitize P formData schema).isValid = true →
      ∃ s, formData.lookup "date" = some (some s) ∧
        (validateAndSanitize P formData schema).data.get "date" = some s ∧
        P.dateIsValid s = true) := by
  obtain ⟨f, hf, hn, hr⟩ := date_field_mem t schema hs
  have key : (validateAndSanitize P formData schema).isValid = true →
      ∃ s, formData.lookup "date" = some (some s) ∧
        (validateAndSanitize P formData schema).data.get "date" = some s ∧
        P.dateIsValid s = true := by
    intro hv
    have h1 := required_of_isValid P formData schema hv f hf hr
    rw [hn, get_sanitizeFormData] at h1
    rw [validateAndSanitize_data, get_sanitizeFormData]
    cases hl : formData.lookup "date" with
    | none => rw [hl] at h1; simp [truthy] at h1
    | some v =>
      rw [hl] at h1
      have h2 : truthy (sanitizeDate P v) = true := h1
      obtain ⟨s, hvs, h3, h4⟩ := sanitizeDate_truthy P v h2
      refine ⟨s, by rw [hvs], ?_, h4⟩
      show sanitizeDate P v = some s
      exact h3
  refine ⟨?_, key⟩
  intro s hl hbad
  by_contra hv
  simp only [Bool.not_eq_false] at hv
  obtain ⟨s', hl', -, hok⟩ := key hv
  rw [hl] at hl'
  simp only [Option.some.injEq] at hl'
  subst hl'
  rw [hbad] at hok
  exact Bool.false_ne_true hok

/-- C5, on the wedding schema: an unparseable date is rejected. -/
theorem date_checked_in_registered_schemas_witness :
    (validateAndSanitize samplePlatform
      [("date", some "someday"), ("bride", some "Ada"), ("groom", some "Alan"),
        ("place", some "Hall")] weddingSchema).isValid = false :=
  (date_checked_in_registered_schemas samplePlatform "wedding" weddingSchema
    [("date", some "someday"), ("bride", some "Ada"), ("groom", some "Alan"),
      ("place", some "Hall")] rfl).1 "someday" rfl (by decide)

/-- C6 (the code at a failing input). The wedding schema has no required
`time` field: a form carrying the invalid time `24:00` is reported valid,
with no error and `data.time` set to `null`. -/
theorem invalid_optional_time_accepted :
    sanitizeTime (some "24:00") = none ∧
    (validateAndSanitize samplePlatform weddingFormWithBadTime weddingSchema).isValid = true ∧
    (validateAndSanitize samplePlatform weddingFormWithBadTime weddingSchema).errors = [] ∧
    (validateAndSanitize samplePlatform weddingFormWithBadTime weddingSchema).data.get "time" =
      none := by
  decide

/-- C7 (as stated, refuted). The time `9:05` has a one-digit hour, so it is
not strict `HH:MM`, and `sanitizeTime` returns it unchanged. -/
theorem sanitizeTime_accepts_one_digit_hour :
    isStrictHHMM "9:05".data = false ∧ sanitizeTime (some "9:05") = some "9:05" := by
  decide

/-- C7 (amended). `sanitizeTime` returns its input unchanged exactly when it
is an hour of two digits `00` to `23` or of one digit `0` to `9`, a colon, and
two digits forming a minute `00` to `59`; every other input, the missing one
included, gives `null`. So `23:59` and `00:00` are accepted and `24:00` and
`9:5` rejected. -/
theorem sanitizeTime_hour_minute (s : String) :
    sanitizeTime (some s) =
      (if isStrictHHMM s.data || isShortHMM s.data then some s else none) ∧
    sanitizeTime none = none ∧
    sanitizeTime (some "23:59") = some "23:59" ∧
    sanitizeTime (some "00:00") = some "00:00" ∧
    sanitizeTime (some "24:00") = none ∧
    sanitizeTime (some "9:5") = none := by
  refine ⟨?_, rfl, by decide, by decide, by decide, by decide⟩
  simp only [sanitizeTime, timeRegex_test_eq]
  by_cases h : s.data = []
  · simp [h, isStrictHHMM, isShortHMM]
  · by_cases h2 : (isStrictHHMM s.data || isShortHMM s.data) = true
    · simp [h, h2]
    · simp [h, h2]

/-- C8. A string of the UK postcode shape passes `validatePostcode` after
`sanitizePostcode`, on every browser; so do `SW1A 1AA` and `EC1A1BB`, and
`12345` does not. -/
theorem shaped_postcode_validates (P : Platform) (s : String)
    (h : ukPostcodeShape s.data = true) :
    validatePostcode (some (sanitizePostcode P (some s))) = true ∧
    validatePostcode (some (sanitizePostcode P (some "SW1A 1AA"))) = true ∧
    validatePostcode (some (sanitizePostcode P (some "EC1A1BB"))) = true ∧
    validatePostcode (some (sanitizePostcode P (some "12345"))) = false := by
  refine ⟨validate_sanitize_of_parts P s (parts_of_shape _ h),
    validate_sanitize_of_parts P "SW1A 1AA" (parts_of_shape _ (by decide)),
    validate_sanitize_of_parts P "EC1A1BB" (parts_of_shape _ (by decide)), ?_⟩
  have h5 : sanitizePostcode P (some "12345") = "12345" := rfl
  rw [h5]
  decide

/-- C8, at a postcode typed in lower case. -/
theorem shaped_postcode_validates_witness :
    ukPostcodeShape "sw1a 1aa".data = true ∧
    validatePostcode (some (sanitizePostcode samplePlatform (some "sw1a 1aa"))) = true :=
  ⟨by decide, (shaped_postcode_validates samplePlatform "sw1a 1aa" (by decide)).1⟩

/-- C9 (as stated, refuted). A tab inside the input survives
`sanitizePostcode`: the result `A<tab>B` has a character that is no capital
letter, no digit and not the space character. -/
theorem sanitizePostcode_keeps_tab :
    (sanitizePostcode samplePlatform (some "A\tB")).data = ['A', '\t', 'B'] ∧
    ¬ (∀ c ∈ (sanitizePostcode samplePlatform (some "A\tB")).data,
        (65 ≤ c.toNat ∧ c.toNat ≤ 90) ∨ (48 ≤ c.toNat ∧ c.toNat ≤ 57) ∨ c = ' ') := by
  decide

/-- C9 (amended). `sanitizePostcode` returns the input upper-cased, stripped
of every character outside `[A-Z0-9\s]` and trimmed: each character of the
result is a capital letter `A` to `Z`, a digit or a whitespace character
(any that `\s` matches), the result neither starts nor ends with whitespace,
and the empty or missing input gives the empty string. -/
theorem sanitizePostcode_result (P : Platform) (input : Option String) :
    (∀ s, input = some s →
      (sanitizePostcode P input).data =
        jsTrim ((toUpperCase P s.data).filter keptByPostcode)) ∧
    (∀ c ∈ (sanitizePostcode P input).data,
      (65 ≤ c.toNat ∧ c.toNat ≤ 90) ∨ (48 ≤ c.toNat ∧ c.toNat ≤ 57) ∨
        isJsWhitespace c = true) ∧
    (∀ c, (sanitizePostcode P input).data.head? = some c → isJsWhitespace c = false) ∧
    (∀ c, (sanitizePostcode P input).data.getLast? = some c → isJsWhitespace c = false) ∧
    sanitizePostcode P none = "" ∧
    sanitizePostcode P (some "") = "" := by
  refine ⟨?_, ?_, ?_, ?_, rfl, rfl⟩
  · rintro s rfl
    exact sanitizePostcode_data_all P s
  · cases input with
    | none => intro c hc; simp [sanitizePostcode] at hc
    | some s =>
      intro c hc
      rw [sanitizePostcode_data_all] at hc
      have hm := (jsTrim_contiguous _).subset hc
      have hk := (List.mem_filter.mp hm).2
      simp only [keptByPostcode, Bool.or_eq_true, Bool.and_eq_true, decide_eq_true_eq] at hk
      tauto
  · cases input with
    | none => intro c hc; simp [sanitizePostcode] at hc
    | some s =>
      intro c hc
      rw [sanitizePostcode_data_all] at hc
      exact jsTrim_head _ c hc
  · cases input with
    | none => intro c hc; simp [sanitizePostcode] at hc
    | some s =>
      intro c hc
      rw [sanitizePostcode_data_all] at hc
      exact jsTrim_getLast _ c hc

/-- C10. `sanitizeText` returns its input without `<` and `>` and trimmed:
the result has no angle bracket, neither starts nor ends with whitespace, and
is a contiguous run of the input's non-bracket characters, in their order.
`sanitizeFormData` applies it to every field named neither `date`, `time`,
`postcode` nor `notes` whose name does not contain `address`. -/
theorem sanitizeText_result (P : Platform) (input : Option String) (formData : Obj) :
    (sanitizeText input).data =
      jsTrim ((input.getD "").data.filter fun c => !(c == '<' || c == '>')) ∧
    (∀ c ∈ (sanitizeText input).data, c ≠ '<' ∧ c ≠ '>') ∧
    (∀ c, (sanitizeText input).data.head? = some c → isJsWhitespace c = false) ∧
    (∀ c, (sanitizeText input).data.getLast? = some c → isJsWhitespace c = false) ∧
    (sanitizeText input).data <:+:
      ((input.getD "").data.filter fun c => !(c == '<' || c == '>')) ∧
    (sanitizeText input).data.Sublist (input.getD "").data ∧
    (∀ e ∈ formData, e.1 ≠ "date" → e.1 ≠ "time" → e.1 ≠ "postcode" → e.1 ≠ "notes" →
      includes e.1.data "address".data = false →
      (e.1, some (sanitizeText e.2)) ∈ sanitizeFormData P formData) ∧
    (∀ k, k ≠ "date" → k ≠ "time" → k ≠ "postcode" → k ≠ "notes" →
      includes k.data "address".data = false →
      (sanitizeFormData P formData).get k =
        match formData.lookup k with
        | some v => some (sanitizeText v)
        | none => none) := by
  have hd := sanitizeText_data input
  refine ⟨hd, ?_, ?_, ?_, ?_, ?_, ?_, ?_⟩
  · intro c hc
    rw [hd] at hc
    have hm := (jsTrim_contiguous _).subset hc
    have hk := (List.mem_filter.mp hm).2
    simpa using hk
  · intro c hc
    rw [hd] at hc
    exact jsTrim_head _ c hc
  · intro c hc
    rw [hd] at hc
    exact jsTrim_getLast _ c hc
  · rw [hd]; exact jsTrim_contiguous _
  · rw [hd]
    exact (jsTrim_contiguous _).sublist.trans (List.filter_sublist _)
  · intro e he h1 h2 h3 h4 h5
    simp only [sanitizeFormData, List.mem_map]
    exact ⟨e, he, by rw [sanitizeField_text P e.1 e.2 h1 h2 h3 h4 h5]⟩
  · intro k h1 h2 h3 h4 h5
    rw [get_sanitizeFormData]
    cases formData.lookup k with
    | none => rfl
    | some v => exact sanitizeField_text P k v h1 h2 h3 h4 h5

/-- C10, on a bride's name typed with markup and padding. -/
theorem sanitizeText_result_witness :
    sanitizeText (some "  <b>Ada</b> ") = "bAda/b" ∧
    ("bride", some (sanitizeText (some "  <b>Ada</b> "))) ∈
      sanitizeFormData samplePlatform [("bride", some "  <b>Ada</b> ")] :=
  ⟨by decide,
   (sanitizeText_result samplePlatform none [("bride", some "  <b>Ada</b> ")]).2.2.2.2.2.2.1
    ("bride", some "  <b>Ada</b> ") (by simp) (by decide) (by decide) (by decide) (by decide)
    (by decide)⟩

/-- C11. On a well-formed table served by the medium, `addEvent` of a record
that carries no `id`, `createdAt` or `updatedAt` succeeds with the key
generator's number as id, which no stored record has; the stored records stay
as they were and are still listed; and `getAllEvents` then lists the new
record with that id, every submitted field unchanged, `createdAt` set to the
clock reading and no `updatedAt`. -/
theorem addEvent_stores_fresh_record (parse : String → Option Int) (now : String) (st : Store)
    (eventData : Obj) (hwf : st.WF) (h1 : eventData.lookup "id" = none)
    (h2 : eventData.lookup "createdAt" = none) (h3 : eventData.lookup "updatedAt" = none) :
    dbOperations.addEvent now none st eventData =
      some ({ rows := st.rows ++
                [{ id := st.nextKey, attrs := eventData ++ [("createdAt", some now)] }],
              nextKey := st.nextKey + 1 },
            { success := true, id := some st.nextKey, error := none }) ∧
    (∀ r ∈ st.rows, r.id ≠ st.nextKey) ∧
    (∀ r ∈ st.rows, r ∈ dbOperations.getAllEvents parse none
      { rows := st.rows ++
          [{ id := st.nextKey, attrs := eventData ++ [("createdAt", some now)] }],
        nextKey := st.nextKey + 1 }) ∧
    ({ id := st.nextKey, attrs := eventData ++ [("createdAt", some now)] } : EventRecord) ∈
      dbOperations.getAllEvents parse none
        { rows := st.rows ++
            [{ id := st.nextKey, attrs := eventData ++ [("createdAt", some now)] }],
          nextKey := st.nextKey + 1 } ∧
    (∀ k, k ≠ "createdAt" →
      (eventData ++ [("createdAt", some now)]).lookup k = eventData.lookup k) ∧
    (eventData ++ [("createdAt", some now)]).lookup "createdAt" = some (some now) ∧
    (eventData ++ [("createdAt", some now)]).lookup "updatedAt" = none ∧
    Store.WF { rows := st.rows ++
                 [{ id := st.nextKey, attrs := eventData ++ [("createdAt", some now)] }],
               nextKey := st.nextKey + 1 } := by
  refine ⟨addEvent_eq now st eventData h1 h2, ?_, ?_, ?_, ?_, ?_, ?_, WF_add st _ hwf⟩
  · intro r hr
    exact Nat.ne_of_lt (hwf.2 r hr)
  · intro r hr
    simp only [dbOperations.getAllEvents, jsSort, Table.toArray]
    rw [mem_stableSort]
    exact List.mem_append_left _ hr
  · simp only [dbOperations.getAllEvents, jsSort, Table.toArray]
    rw [mem_stableSort]
    simp
  · intro k hk
    rw [lookup_append_of_none _ _ _ _ h2]
    simp [hk]
  · rw [lookup_append_of_none _ _ _ _ h2]
    simp
  · rw [lookup_append_of_none _ _ _ _ h2]
    simp [h3]


/-- C11, adding Ada and Alan's wedding to a table that holds one record. -/
theorem addEvent_stores_fresh_record_witness :
    dbOperations.addEvent "2025-02-02T09:00:00.000Z" none oneWeddingStore
      (adaAlanForm ++ [("type", some "wedding")]) =
      some ({ rows := oneWeddingStore.rows ++
                [{ id := 2, attrs := adaAlanForm ++ [("type", some "wedding")] ++
                    [("createdAt", some "2025-02-02T09:00:00.000Z")] }],
              nextKey := 3 },
            { success := true, id := some 2, error := none }) :=
  (addEvent_stores_fresh_record sampleParse "2025-02-02T09:00:00.000Z" oneWeddingStore
    (adaAlanForm ++ [("type", some "wedding")]) ⟨by decide, by decide⟩ (by decide) (by decide)
    (by decide)).1

/-- C12 (as stated, refuted). A stored date that does not parse does not
count as epoch zero: the record dated `someday` stays behind the one dated
2025, so the listing is not ascending once `someday` is read as 0. -/
theorem unparseable_date_not_epoch_zero :
    (dbOperations.getAllEvents sampleParse none twoDatesStore).map (fun r => r.id) = [1, 2] ∧
    (dbOperations.getAllEvents sampleParse none twoDatesStore).map (timestampOf sampleParse) =
      [1748736000000, 0] ∧
    ¬ (dbOperations.getAllEvents sampleParse none twoDatesStore).Pairwise
        (fun a b => timestampOf sampleParse a ≤ timestampOf sampleParse b) := by
  decide


/-- C12 (amended). When every stored date is missing, empty or parseable,
`getAllEvents` returns a permutation of the stored records, ascending by the
timestamp of the date, a missing or empty date counting as epoch zero, and
records of equal timestamp keep the order in which they are stored. -/
theorem getAllEvents_stable_sort (parse : String → Option Int) (st : Store)
    (h : ∀ r ∈ st.rows, dateOf parse r ≠ none) :
    (dbOperations.getAllEvents parse none st).Perm st.rows ∧
    (dbOperations.getAllEvents parse none st).Pairwise
      (fun a b => timestampOf parse a ≤ timestampOf parse b) ∧
    (∀ t : Int,
      (dbOperations.getAllEvents parse none st).filter (fun r => timestampOf parse r == t) =
        st.rows.filter (fun r => timestampOf parse r == t)) ∧
    (∀ r : EventRecord, truthy (r.attrs.get "date") = false → timestampOf parse r = 0) := by
  have he : dbOperations.getAllEvents parse none st =
      stableSort (fun a b => decide (timestampOf parse a ≤ timestampOf parse b)) st.rows :=
    jsSort_eq_keySort parse st.rows h
  refine ⟨?_, ?_, ?_, ?_⟩
  · rw [he]; exact stableSort_perm _ _
  · rw [he]; exact stableSort_sorted (timestampOf parse) st.rows
  · intro t
    rw [he]; exact stableSort_stable (timestampOf parse) st.rows t
  · intro r hr
    simp only [timestampOf, dateOf]
    cases hd : r.attrs.get "date" with
    | none => rfl
    | some s =>
      rw [hd] at hr
      have : s.data = [] := by simpa [truthy] using hr
      simp [this]


/-- C12, on three records of which two share a day. -/
theorem getAllEvents_stable_sort_witness :
    (dbOperations.getAllEvents sampleParse none threeWeddingsStore).Perm
      threeWeddingsStore.rows ∧
    (dbOperations.getAllEvents sampleParse none threeWeddingsStore).map (fun r => r.id) =
      [2, 1, 3] :=
  ⟨(getAllEvents_stable_sort sampleParse threeWeddingsStore (by decide)).1, by decide⟩

/-- C13 (as stated, refuted). With a stored date that does not parse, the
weddings come as 3, 1 from `getEventsByType` and as 1, 3 from the filtered
`getAllEvents`. -/
theorem byType_differs_with_unparseable_date :
    (dbOperations.getEventsByType sampleParse none undatedStore "wedding").map (fun r => r.id) =
      [3, 1] ∧
    ((dbOperations.getAllEvents sampleParse none undatedStore).filter
      (fun r => r.attrs.get "type" == some "wedding")).map (fun r => r.id) = [1, 3] := by
  decide


/-- C13 (amended). When every stored date is missing, empty or parseable,
`getEventsByType(t)` is the list of `getAllEvents()` filtered to the records
of type `t`, in the same order. -/
theorem getEventsByType_filters (parse : String → Option Int) (st : Store) (t : String)
    (h : ∀ r ∈ st.rows, dateOf parse r ≠ none) :
    dbOperations.getEventsByType parse none st t =
      (dbOperations.getAllEvents parse none st).filter
        (fun r => r.attrs.get "type" == some t) := by
  have he : dbOperations.getAllEvents parse none st =
      stableSort (fun a b => decide (timestampOf parse a ≤ timestampOf parse b)) st.rows :=
    jsSort_eq_keySort parse st.rows h
  have ht : dbOperations.getEventsByType parse none st t =
      stableSort (fun a b => decide (timestampOf parse a ≤ timestampOf parse b))
        (st.rows.filter (fun r => r.attrs.get "type" == some t)) :=
    jsSort_eq_keySort parse _ (fun r hr => h r (List.mem_filter.mp hr).1)
  rw [he, ht, filter_stableSort]

/-- C13, on three records with parseable dates. -/
theorem getEventsByType_filters_witness :
    dbOperations.getEventsByType sampleParse none threeWeddingsStore "wedding" =
      (dbOperations.getAllEvents sampleParse none threeWeddingsStore).filter
        (fun r => r.attrs.get "type" == some "wedding") :=
  getEventsByType_filters sampleParse threeWeddingsStore "wedding" (by decide)

/-- C14. For an id present in the table and a payload of plain, distinct
field names, `updateEvent` served by the medium succeeds, gives each named
attribute its new value, sets `updatedAt` to the clock reading, and leaves
every other attribute of the record, its id, and every other record as they
were; updating `place` to `New Hall` changes `place` and `updatedAt` only. -/
theorem updateEvent_merges_fields (now : String) (st : Store) (id : Nat) (updates : Obj)
    (r : EventRecord) (hr : r ∈ st.rows) (hid : r.id = id)
    (hplain : plainChanges updates = true) (hnd : (updates.map Prod.fst).Nodup) :
    dbOperations.updateEvent now none st id updates =
      some (updatedStore now st id updates,
        { success := true, id := none, error := none }) ∧
    updatedRecord now r updates ∈ (updatedStore now st id updates).rows ∧
    (updatedRecord now r updates).id = id ∧
    (∀ k v, k ≠ "updatedAt" → updates.lookup k = some v →
      (updatedRecord now r updates).attrs.lookup k = some v) ∧
    (updatedRecord now r updates).attrs.lookup "updatedAt" = some (some now) ∧
    (∀ k, k ≠ "updatedAt" → updates.lookup k = none →
      (updatedRecord now r updates).attrs.lookup k = r.attrs.lookup k) ∧
    (∀ r2 ∈ st.rows, r2.id ≠ id → r2 ∈ (updatedStore now st id updates).rows) ∧
    (∀ r2 ∈ (updatedStore now st id updates).rows, r2.id ≠ id → r2 ∈ st.rows) ∧
    (updatedStore now st id updates).rows.map (fun x => x.id) = st.rows.map (fun x => x.id) ∧
    (updatedStore now oneWeddingStore 1 [("place", some "New Hall")]).rows =
      [{ id := 1, attrs := [("date", some "2025-06-01"), ("bride", some "Ada"),
          ("groom", some "Alan"), ("place", some "New Hall"), ("type", some "wedding"),
          ("createdAt", some "2025-01-01T10:00:00.000Z"), ("updatedAt", some now)] }] := by
  have hnd2 := nodup_keys_set updates "updatedAt" (some now) hnd
  have hlk : ∀ k, (updatedRecord now r updates).attrs.lookup k =
      match (updates.set "updatedAt" (some now)).lookup k with
      | some v => some v
      | none => r.attrs.lookup k := fun k => lookup_applyChanges _ _ k hnd2
  refine ⟨updateEvent_eq now st id updates hplain, ?_, hid, ?_, ?_, ?_, ?_, ?_, ?_, ?_⟩
  · simp only [updatedStore, List.mem_map]
    exact ⟨r, hr, by simp [hid]⟩
  · intro k v hk hv
    rw [hlk, lookup_set]
    simp [hk, hv]
  · rw [hlk, lookup_set]
    simp
  · intro k hk hv
    rw [hlk, lookup_set]
    simp [hk, hv]
  · intro r2 hr2 hne
    simp only [updatedStore, List.mem_map]
    exact ⟨r2, hr2, by simp [hne]⟩
  · intro r2 hr2 hne
    simp only [updatedStore, List.mem_map] at hr2
    obtain ⟨r3, hr3, he⟩ := hr2
    by_cases h3 : r3.id = id
    · rw [if_pos h3] at he
      rw [← he] at hne
      exact absurd h3 hne
    · rw [if_neg h3] at he
      rw [← he]; exact hr3
  · simp only [updatedStore, List.map_map]
    apply List.map_congr_left
    intro x _
    by_cases hx : x.id = id
    · simp [hx, updatedRecord]
    · simp [hx]
  · rfl

/-- C14, on the stored wedding. -/
theorem updateEvent_merges_fields_witness :
    dbOperations.updateEvent "2025-03-03T08:00:00.000Z" none oneWeddingStore 1
      [("place", some "New Hall")] =
      some (updatedStore "2025-03-03T08:00:00.000Z" oneWeddingStore 1
          [("place", some "New Hall")],
        { success := true, id := none, error := none }) :=
  (updateEvent_merges_fields "2025-03-03T08:00:00.000Z" oneWeddingStore 1
    [("place", some "New Hall")]
    { id := 1, attrs := [("date", some "2025-06-01"), ("bride", some "Ada"),
      ("groom", some "Alan"), ("place", some "Hall"), ("type", some "wedding"),
      ("createdAt", some "2025-01-01T10:00:00.000Z")] }
    (by decide) rfl (by decide) (by decide)).1

/-- C15 (as stated, refuted). A payload that names `type` and `createdAt`
overwrites both: the stored wedding becomes a funeral created in 2000. -/
theorem updateEvent_overwrites_type :
    oneWeddingStore.rows.map (fun r => (r.attrs.get "type", r.attrs.get "createdAt")) =
      [(some "wedding", some "2025-01-01T10:00:00.000Z")] ∧
    (dbOperations.updateEvent "2025-03-03T08:00:00.000Z" none oneWeddingStore 1
        [("type", some "funeral"), ("createdAt", some "2000-01-01T00:00:00.000Z")]).map
      (fun x => x.1.rows.map (fun r => (r.attrs.get "type", r.attrs.get "createdAt"))) =
      some [(some "funeral", some "2000-01-01T00:00:00.000Z")] := by
  decide


/-- C15 (amended). `updateEvent` with a payload of plain, distinct names
never changes the record's id, and leaves `type` and `createdAt` as they were
when the payload does not name them; a payload that names `type` or
`createdAt` overwrites it.  The submit handler in edit mode passes the
sanitized data with `type` set to the currently selected type, so the stored
type becomes the selected one; the inline-save handler passes the sanitized
data alone. -/
theorem updateEvent_identity_attributes (now : String) (st : Store) (id : Nat) (updates : Obj)
    (r : EventRecord) (hplain : plainChanges updates = true)
    (hnd : (updates.map Prod.fst).Nodup) :
    dbOperations.updateEvent now none st id updates =
      some (updatedStore now st id updates,
        { success := true, id := none, error := none }) ∧
    (updatedRecord now r updates).id = r.id ∧
    (updates.lookup "type" = none →
      (updatedRecord now r updates).attrs.lookup "type" = r.attrs.lookup "type") ∧
    (updates.lookup "createdAt" = none →
      (updatedRecord now r updates).attrs.lookup "createdAt" = r.attrs.lookup "createdAt") ∧
    (∀ v, updates.lookup "type" = some v →
      (updatedRecord now r updates).attrs.lookup "type" = some v) ∧
    (∀ v, updates.lookup "createdAt" = some v →
      (updatedRecord now r updates).attrs.lookup "createdAt" = some v) ∧
    (∀ (σ : Type) (P : Platform) (exec : σ → DbCall → σ × Bool) (app : App σ) (data : Obj)
      (t : String) (schema : Schema) (n : Nat),
      app.currentEventType = some t → EVENT_SCHEMAS t = some schema →
      (validateAndSanitize P data schema).isValid = true →
      app.editingEventId = some (n + 1) →
      (handleFormSubmit P exec app data).calls =
        app.calls ++ [DbCall.updateEvent (n + 1)
          ((validateAndSanitize P data schema).data.set "type" (some t))] ∧
      ((validateAndSanitize P data schema).data.set "type" (some t)).lookup "type" =
        some (some t)) ∧
    (∀ (σ : Type) (P : Platform) (exec : σ → DbCall → σ × Bool) (app : App σ) (data : Obj)
      (t : String) (schema : Schema) (id2 : Nat),
      EVENT_SCHEMAS t = some schema →
      (validateAndSanitize P data schema).isValid = true →
      (handleSaveEdit P exec app id2 (some (t, data))).calls =
        app.calls ++ [DbCall.updateEvent id2 (validateAndSanitize P data schema).data]) := by
  have hnd2 := nodup_keys_set updates "updatedAt" (some now) hnd
  have hlk : ∀ k, (updatedRecord now r updates).attrs.lookup k =
      match (updates.set "updatedAt" (some now)).lookup k with
      | some v => some v
      | none => r.attrs.lookup k := fun k => lookup_applyChanges _ _ k hnd2
  refine ⟨updateEvent_eq now st id updates hplain, rfl, ?_, ?_, ?_, ?_, ?_, ?_⟩
  · intro h
    rw [hlk, lookup_set]
    simp [h]
  · intro h
    rw [hlk, lookup_set]
    simp [h]
  · intro v h
    rw [hlk, lookup_set]
    simp [h]
  · intro v h
    rw [hlk, lookup_set]
    simp [h]
  · intro σ P exec app data t schema n ht hs hv he
    refine ⟨handleFormSubmit_edit P exec app data t schema n ht hs hv he, ?_⟩
    rw [lookup_set]
    simp
  · intro σ P exec app data t schema id2 hs hv
    exact handleSaveEdit_valid P exec app id2 data t schema hs hv


/-- C15, updating the place of the stored wedding: its type stays. -/
theorem updateEvent_identity_attributes_witness :
    (updatedRecord "2025-03-03T08:00:00.000Z"
        { id := 1, attrs := [("place", some "Hall"), ("type", some "wedding")] }
        [("place", some "New Hall")]).attrs.lookup "type" = some (some "wedding") :=
  (updateEvent_identity_attributes "2025-03-03T08:00:00.000Z" oneWeddingStore 1
    [("place", some "New Hall")]
    { id := 1, attrs := [("place", some "Hall"), ("type", some "wedding")] }
    (by decide) (by decide)).2.2.1 (by decide)

/-- C16 (as stated, refuted). No record has id 9, and both `updateEvent` and
`deleteEvent` on id 9 report success, not a failure. -/
theorem absent_id_reports_success :
    (∀ r ∈ oneWeddingStore.rows, r.id ≠ 9) ∧
    dbOperations.updateEvent "2025-03-03T08:00:00.000Z" none oneWeddingStore 9
        [("place", some "New Hall")] =
      some (oneWeddingStore, { success := true, id := none, error := none }) ∧
    dbOperations.deleteEvent none oneWeddingStore 9 =
      (oneWeddingStore, { success := true, id := none, error := none }) := by
  decide


/-- C16 (amended). For an id absent from the table, `updateEvent` and
`deleteEvent` served by the medium return success and leave the table as it
was.  After `deleteEvent(id)` the id is no longer listed by `getAllEvents`,
and a second `deleteEvent(id)` returns success again and changes nothing. -/
theorem absent_id_is_a_successful_no_op (parse : String → Option Int) (now : String)
    (st : Store) (id : Nat) (updates : Obj) (h : ∀ r ∈ st.rows, r.id ≠ id)
    (hplain : plainChanges updates = true) :
    dbOperations.updateEvent now none st id updates =
      some (st, { success := true, id := none, error := none }) ∧
    dbOperations.deleteEvent none st id =
      (st, { success := true, id := none, error := none }) ∧
    (∀ id2 : Nat,
      (dbOperations.deleteEvent none st id2).2 =
        { success := true, id := none, error := none } ∧
      (∀ r ∈ dbOperations.getAllEvents parse none (dbOperations.deleteEvent none st id2).1,
        r.id ≠ id2) ∧
      dbOperations.deleteEvent none (dbOperations.deleteEvent none st id2).1 id2 =
        ((dbOperations.deleteEvent none st id2).1,
          { success := true, id := none, error := none })) := by
  refine ⟨?_, ?_, ?_⟩
  · rw [updateEvent_eq now st id updates hplain, updatedStore_absent now st id updates h]
  · simp only [dbOperations.deleteEvent, delete_absent st id h]
  · intro id2
    have hgone : ∀ r ∈ (Table.delete st id2).rows, r.id ≠ id2 := by
      intro r hr
      simp only [Table.delete, List.mem_filter] at hr
      simpa using hr.2
    refine ⟨rfl, ?_, ?_⟩
    · intro r hr
      simp only [dbOperations.deleteEvent, dbOperations.getAllEvents, jsSort,
        Table.toArray] at hr
      rw [mem_stableSort] at hr
      exact hgone r hr
    · simp only [dbOperations.deleteEvent]
      rw [delete_absent (Table.delete st id2) id2 hgone]


/-- C16, on the id 9, which the table of one wedding does not hold. -/
theorem absent_id_is_a_successful_no_op_witness :
    dbOperations.deleteEvent none oneWeddingStore 9 =
      (oneWeddingStore, { success := true, id := none, error := none }) :=
  (absent_id_is_a_successful_no_op sampleParse "2025-03-03T08:00:00.000Z" oneWeddingStore 9
    [("place", some "New Hall")] (by decide) (by decide)).2.1

/-- C17 (as stated, refuted). When the medium rejects the read, both
listings return the empty array, which is what they return, successfully, on
an empty table. -/
theorem failed_listing_looks_like_empty_table :
    dbOperations.getAllEvents sampleParse (some "QuotaExceededError") oneWeddingStore =
      dbOperations.getAllEvents sampleParse none Store.empty ∧
    dbOperations.getEventsByType sampleParse (some "QuotaExceededError") oneWeddingStore
        "wedding" =
      dbOperations.getEventsByType sampleParse none Store.empty "wedding" := by
  decide


/-- C17 (amended). When the medium rejects the request, `addEvent`,
`updateEvent`, `deleteEvent` and `clearAll` return `success: false` with the
error message and leave the table as it was, whereas their served calls
return `success: true`; `getAllEvents` and `getEventsByType` return the empty
array, the value they also return on an empty table. -/
theorem failures_are_returned (parse : String → Option Int) (now message : String)
    (st : Store) (id : Nat) (data : Obj) (type : String) :
    dbOperations.addEvent now (some message) st data =
      some (st, { success := false, id := none, error := some message }) ∧
    dbOperations.updateEvent now (some message) st id data =
      some (st, { success := false, id := none, error := some message }) ∧
    dbOperations.deleteEvent (some message) st id =
      (st, { success := false, id := none, error := some message }) ∧
    dbOperations.clearAll (some message) st =
      (st, { success := false, id := none, error := some message }) ∧
    (∀ x, dbOperations.addEvent now none st data = some x → x.2.success = true) ∧
    (∀ x, dbOperations.updateEvent now none st id data = some x → x.2.success = true) ∧
    (dbOperations.deleteEvent none st id).2.success = true ∧
    (dbOperations.clearAll none st).2.success = true ∧
    dbOperations.getAllEvents parse (some message) st = [] ∧
    dbOperations.getEventsByType parse (some message) st type = [] ∧
    dbOperations.getAllEvents parse none Store.empty = [] ∧
    dbOperations.getEventsByType parse none Store.empty type = [] := by
  refine ⟨rfl, rfl, rfl, rfl, ?_, ?_, rfl, rfl, rfl, rfl, rfl, rfl⟩
  · intro x hx
    simp only [dbOperations.addEvent] at hx
    split at hx
    · simp only [Option.some.injEq] at hx
      rw [← hx]
    · simp at hx
  · intro x hx
    simp only [dbOperations.updateEvent] at hx
    split at hx
    · simp only [Option.some.injEq] at hx
      rw [← hx]
    · simp at hx


/-- C18. On a browser whose upper-casing leaves whitespace characters alone,
`sanitizeText`, `sanitizePostcode`, `sanitizeDate` and `sanitizeTime` return
their own output unchanged, so `sanitizeFormData` is idempotent on form data
without a `notes` or address key and validating the sanitized data again
gives the same result; and for every form data the date and time format
errors are never appended. -/
theorem sanitization_idempotent (P : Platform) (d : Obj) (schema : Schema)
    (hP : ∀ c, isJsWhitespace c = true → 128 ≤ c.toNat → P.upperNonAscii c = [c])
    (hkeys : ∀ e ∈ d, e.1 ≠ "notes" ∧ includes e.1.data "address".data = false) :
    sanitizeFormData P (sanitizeFormData P d) = sanitizeFormData P d ∧
    (∀ v, sanitizeText (some (sanitizeText v)) = sanitizeText v) ∧
    (∀ v, sanitizePostcode P (some (sanitizePostcode P v)) = sanitizePostcode P v) ∧
    (∀ v, sanitizeDate P (sanitizeDate P v) = sanitizeDate P v) ∧
    (∀ v, sanitizeTime (sanitizeTime v) = sanitizeTime v) ∧
    (validateAndSanitize P (validateAndSanitize P d schema).data schema).data =
      (validateAndSanitize P d schema).data ∧
    validateAndSanitize P (validateAndSanitize P d schema).data schema =
      validateAndSanitize P d schema ∧
    (∀ (d2 : Obj) (schema2 : Schema),
      dateErrors P (validateAndSanitize P d2 schema2).data = [] ∧
      timeErrors (validateAndSanitize P d2 schema2).data = [] ∧
      (validateAndSanitize P d2 schema2).errors =
        requiredErrors (validateAndSanitize P d2 schema2).data schema2 ++
          postcodeErrors (validateAndSanitize P d2 schema2).data) := by
  have hidem := sanitizeFormData_idem P hP d hkeys
  have hall := validateAndSanitize_of_data P (sanitizeFormData P d) d schema hidem
  refine ⟨hidem, sanitizeText_idem, sanitizePostcode_idem P hP, sanitizeDate_idem P,
    sanitizeTime_idem, ?_, hall, ?_⟩
  · rw [validateAndSanitize_data, validateAndSanitize_data]
    exact hidem
  · intro d2 schema2
    exact ⟨dateErrors_eq_nil P d2, timeErrors_eq_nil P d2,
      validateAndSanitize_errors P d2 schema2⟩

/-- C18, on a form with markup, a lower-case postcode and a short time. -/
theorem sanitization_idempotent_witness :
    sanitizeFormData samplePlatform (sanitizeFormData samplePlatform
        [("bride", some " <Ada> "), ("postcode", some "sw1a 1aa"), ("time", some "9:05")]) =
      sanitizeFormData samplePlatform
        [("bride", some " <Ada> "), ("postcode", some "sw1a 1aa"), ("time", some "9:05")] :=
  (sanitization_idempotent samplePlatform
    [("bride", some " <Ada> "), ("postcode", some "sw1a 1aa"), ("time", some "9:05")]
    weddingSchema (fun _ _ _ => rfl) (by decide)).1

end ActivityPlanner
